import Mathlib

/-!
# anirip: subtitle engine and episode pipeline

A shallow embedding of `src/subtitle.go` (key derivation, track selection,
ASS transcoding) and of the `app.Action` closure of `main.go` (the per-URL /
per-episode pipeline), followed by the theorems that settle the claims of the
specification against that embedding.

Conventions.
* Go `int` is the 64-bit two's-complement integer: values are `Int`, and every
  arithmetic operation that can overflow is followed by `wrapInt`.
* Go `string` is `String`; `[]byte(s)` is the UTF-8 byte list `goBytes s`.
* Standard-library and third-party functions the code calls (`sha1.Sum`,
  `xml.Unmarshal`, `url.Parse`, the provider packages, the external media
  tools) are parameters of the definitions that call them.
* A Go runtime panic (index out of range, division by zero) is a result of its
  own, distinct from a returned `error`.
-/

namespace Anirip

/-! ## Machine integers and strings -/

/-- Two's-complement wrap of an integer into the range of Go's 64-bit `int`. -/
def wrapInt (x : Int) : Int := Int.bmod x (2 ^ 64)

/-- Go `strconv.Itoa`: decimal text of an integer, with a leading `-` when negative. -/
def Itoa (n : Int) : String := toString n

/-- Go `[]byte(s)`: the UTF-8 bytes of a string. -/
def goBytes (s : String) : List Nat :=
  (s.data.map fun c => (String.utf8EncodeChar c).map UInt8.toNat).flatten

/-- Go conversion `string(n)` of an integer to a string: the text of the code
point `n`, and U+FFFD when `n` is not a valid code point. -/
def runeToString (n : Int) : String :=
  if 0 ≤ n ∧ n.toNat.isValidChar then String.singleton (Char.ofNat n.toNat)
  else String.singleton (Char.ofNat 0xFFFD)

/-- Go `strings.Contains(s, substr)`: `substr` occurs in `s` as a contiguous run. -/
def stringsContains (s substr : String) : Bool :=
  decide (substr.data <:+: s.data)

/-! ## `createString` and `generateKey` (subtitle.go, lines 280-316) -/

/-- The first loop of `createString`: `n` times, append the sum of the last two
elements of `argArray`. -/
def createString.extend : Nat → List Int → List Int
  | 0, argArray => argArray
  | n + 1, argArray =>
    createString.extend n
      (argArray ++ [wrapInt (argArray.getD (argArray.length - 1) 0
                              + argArray.getD (argArray.length - 2) 0)])

/-- The function `createString(args []int) string`. `none` is a runtime panic:
`args` shorter than four elements, or a zero modulus reached in the second loop. -/
def createString (args : List Int) : Option String :=
  match args with
  | a0 :: a1 :: a2 :: a3 :: _ =>
    let argArray := createString.extend a0.toNat [a2, a3]
    (argArray.drop 2).foldlM
      (fun finalString arg =>
        if a1 = 0 then none
        else some (finalString ++ runeToString (wrapInt (Int.tmod arg a1 + 33))))
      ""
  | _ => none

/-- The value `int(math.Floor(math.Sqrt(6.9) * math.Pow(2, 25)))`. -/
def magic : Int := 88140282

/-- The integer `eq3` computed by `generateKey`. -/
def generateKey.eq3 (subtitleID : Int) : Int :=
  let eq1 := Int.xor magic subtitleID
  let eq2 := magic
  Int.xor (Int.xor (Int.xor subtitleID eq2) ((Int.xor subtitleID eq2) >>> 3))
    (wrapInt (eq1 * 32))

/-- The string `createString([]int{20, 97, 1, 2}) + strconv.Itoa(eq3)` that
`generateKey` hashes. -/
def generateKey.hashString (subtitleID : Int) : Option String :=
  match createString [20, 97, 1, 2] with
  | none => none
  | some s => some (s ++ Itoa (generateKey.eq3 subtitleID))

/-- The function `generateKey(subtitleID int) []byte`, over the digest function
`sha1.Sum : []byte → [20]byte` of the standard library. -/
def generateKey (sha1Sum : List Nat → Mathlib.Vector Nat 20) (subtitleID : Int) :
    Option (List Nat) :=
  match generateKey.hashString subtitleID with
  | none => none
  | some str =>
    let hashData := goBytes str
    let shortHashArray := sha1Sum hashData
    let longHashArray := (List.range 20).foldl
      (fun long i => long.set i (shortHashArray.toList.getD i 0)) (List.replicate 32 0)
    let finalHashArray := (List.range 32).foldl
      (fun final i => final ++ [longHashArray.getD i 0]) []
    some finalHashArray

/-- The Fibonacci-style sequence the specification describes: `a`, `b`, and
from then on the sum of the two preceding terms (0-based). -/
def fibFrom (a b : Int) : Nat → Int
  | 0 => a
  | 1 => b
  | n + 2 => fibFrom a b n + fibFrom a b (n + 1)

/-! ## Data model (subtitle.go, lines 20-96) -/

/-- The struct `Subtitle`. `Delay` is a `float64` the code only stores; it
is kept as its IEEE-754 bit pattern. -/
structure Subtitle where
  ID : Int
  Link : String
  Title : String
  Default : Int
  Delay : Nat
  Iv : String
  Data : String
deriving DecidableEq, Repr

/-- The zero value `Subtitle{}`. -/
def Subtitle.zero : Subtitle := ⟨0, "", "", 0, 0, "", ""⟩

/-- The struct `SubListResults`. -/
structure SubListResults where
  Subtitles : List Subtitle
deriving DecidableEq, Repr

/-- The struct `Style`. -/
structure Style where
  ID : Int
  Name : String
  FontName : String
  FontSize : Int
  PrimaryColor : String
  SecondaryColor : String
  OutlineColor : String
  BackColor : String
  Bold : Int
  Italic : Int
  Underline : Int
  Strikeout : Int
  ScaleX : Int
  ScaleY : Int
  Spacing : Int
  Angle : Int
  BorderStyle : Int
  Outline : Int
  Shadow : Int
  Alignment : Int
  MarginLeft : String
  MarginRight : String
  MarginVert : String
  Encoding : Int
deriving DecidableEq, Repr

/-- The struct `ScriptStyles`: one `styles` block of the document. -/
structure ScriptStyles where
  Styles : List Style
deriving DecidableEq, Repr

/-- The struct `Event`. Its field `Event []ScriptEvents` (event blocks nested
in an event) is never read by the code and is left out. -/
structure Event where
  ID : Int
  Start : String
  End : String
  Style : String
  Name : String
  MarginLeft : String
  MarginRight : String
  MarginVert : String
  Effect : String
  Text : String
deriving DecidableEq, Repr

/-- The struct `ScriptEvents`: one `events` block of the document. -/
structure ScriptEvents where
  Events : List Event
deriving DecidableEq, Repr

/-- The struct `SubtitleScript`: the parsed subtitle document. -/
structure SubtitleScript where
  ID : Int
  Title : String
  PlayResX : Int
  PlayResY : Int
  LangCode : String
  Lang : String
  Created : String
  Progress : String
  Status : String
  WrapStyle : Int
  Styles : List ScriptStyles
  Events : List ScriptEvents
deriving DecidableEq, Repr

/-- How a Go call ends: it returns its results, or a runtime panic unwinds it. -/
inductive Run (α : Type) where
  | ret (a : α)
  | crash
deriving DecidableEq, Repr

/-! ## `getSubtitleInfo` (subtitle.go, lines 98-134) -/

/-- One of the two `for` loops of `getSubtitleInfo`: walk the tracks by
increasing index and return the first whose title contains `needle`. -/
def getSubtitleInfo.scan (needle : String) : List Subtitle → Option Subtitle
  | [] => none
  | s :: rest =>
    if stringsContains s.Title needle then some s else getSubtitleInfo.scan needle rest

/-- The function `getSubtitleInfo`, over `getXML` (the provider request) and
`xml.Unmarshal` into a `SubListResults`. The result is the returned pair
`(Subtitle, error)`, where `none` is the `nil` error. Console output is not kept. -/
def getSubtitleInfo {Episode Cookies Err : Type}
    (getXML : String → Episode → Cookies → Except Err String)
    (xmlUnmarshal : String → Except Err SubListResults)
    (language : String) (episode : Episode) (cookies : Cookies) : Subtitle × Option Err :=
  match getXML "RpcApiSubtitle_GetListing" episode cookies with
  | .error err => (Subtitle.zero, some err)
  | .ok xmlString =>
    if stringsContains "<media_id>None</media_id>" xmlString then (Subtitle.zero, none)
    else
      match xmlUnmarshal xmlString with
      | .error err => (Subtitle.zero, some err)
      | .ok subListResults =>
        match getSubtitleInfo.scan language subListResults.Subtitles with
        | some s => (s, none)
        | none =>
          match getSubtitleInfo.scan "English" subListResults.Subtitles with
          | some s => (s, none)
          | none => (Subtitle.zero, none)

/-! ## `formatSubtitles` (subtitle.go, lines 221-278) -/

/-- The string `header` built by `formatSubtitles`. -/
def formatSubtitles.header (subScript : SubtitleScript) : String :=
  "[Script Info]\nTitle: " ++ subScript.Title ++ "\nScriptType: v4.00+\nWrapStyle: "
    ++ Itoa subScript.WrapStyle ++ "\nPlayResX: 656\nPlayResY: 368\n\n"

/-- The initial value of the string `styles` in `formatSubtitles`. -/
def formatSubtitles.stylesInit : String :=
  "[V4+ Styles]\nFormat: Name, Fontname, Fontsize, PrimaryColour, SecondaryColour, OutlineColour, BackColour, Bold, Italic, Underline, StrikeOut, ScaleX, ScaleY, Spacing, Angle, BorderStyle, Outline, Shadow, Alignment, MarginL, MarginR, MarginV, Encoding\n"

/-- The initial value of the string `events` in `formatSubtitles`. -/
def formatSubtitles.eventsInit : String :=
  "\n[Events]\nFormat: Layer, Start, End, Style, Name, MarginL, MarginR, MarginV, Effect, Text\n"

/-- The body of the loop over `styleArray`: the new value of `styles`. -/
def formatSubtitles.styleStep (styles : String) (style : Style) : String :=
  styles ++ "Style: " ++
    style.Name ++ "," ++
    style.FontName ++ "," ++
    Itoa style.FontSize ++ "," ++
    style.PrimaryColor ++ "," ++
    style.SecondaryColor ++ "," ++
    style.OutlineColor ++ "," ++
    style.BackColor ++ "," ++
    Itoa style.Bold ++ "," ++
    Itoa style.Italic ++ "," ++
    Itoa style.Underline ++ "," ++
    Itoa style.Strikeout ++ "," ++
    Itoa style.ScaleX ++ "," ++
    Itoa style.ScaleY ++ "," ++
    Itoa style.Spacing ++ "," ++
    Itoa style.Angle ++ "," ++
    Itoa style.BorderStyle ++ "," ++
    Itoa style.Outline ++ "," ++
    Itoa style.Shadow ++ "," ++
    Itoa style.Alignment ++ "," ++
    style.MarginLeft ++ "," ++
    style.MarginRight ++ "," ++
    style.MarginVert ++ "," ++
    Itoa style.Encoding ++ "\n"

/-- The body of the loop over `eventArray`: the new value of `events`. -/
def formatSubtitles.eventStep (events : String) (event : Event) : String :=
  events ++ "Dialogue: 0," ++
    event.Start ++ "," ++
    event.End ++ "," ++
    event.Style ++ "," ++
    event.Name ++ "," ++
    event.MarginLeft ++ "," ++
    event.MarginRight ++ "," ++
    event.MarginVert ++ "," ++
    event.Effect ++ "," ++
    event.Text ++ "\n"

/-- The function `formatSubtitles`, over `xml.Unmarshal` into a
`SubtitleScript`. It returns the pair `(string, error)`, or panics when
`subScript.Styles[0]` or `subScript.Events[0]` is out of range. The function
has no time-offset parameter. -/
def formatSubtitles {Err : Type} (xmlUnmarshal : String → Except Err SubtitleScript)
    (subString : String) : Run (String × Option Err) :=
  match xmlUnmarshal subString with
  | .error err => .ret ("", some err)
  | .ok subScript =>
    let header := formatSubtitles.header subScript
    match subScript.Styles with
    | [] => .crash
    | styles0 :: _ =>
      let styleArray := styles0.Styles
      match subScript.Events with
      | [] => .crash
      | events0 :: _ =>
        let eventArray := events0.Events
        let styles := styleArray.foldl formatSubtitles.styleStep formatSubtitles.stylesInit
        let events := eventArray.foldl formatSubtitles.eventStep formatSubtitles.eventsInit
        .ret (header ++ styles ++ events, none)

/-! ## The action of `main` (main.go, lines 130-286)

The provider packages, the file system and the external media tools are the
fields of a `World`: each operation takes the state of the outside world and
returns its result with the new state. An `error` is kept as its text.
Every call into the world and every console line is appended, in program
order, to a trace, so that statements about what the pipeline invokes can be
made. The session and its cookies are part of the state of the world. -/

/-- The two provider variants `app.Action` can select. -/
inductive Provider where
  | crunchyroll
  | daisuki
deriving DecidableEq, Repr

/-- The console colours of the `color` package used by `main`. -/
inductive Colour where
  | red
  | white
  | green
  | cyan
deriving DecidableEq, Repr

/-- A season as `show.GetSeasons()` yields it: `GetNumber()` and `GetEpisodes()`. -/
structure Season (Ep : Type) where
  number : Int
  episodes : List Ep
deriving DecidableEq, Repr

/-- A show after `ScrapeEpisodes`: `GetTitle()` and `GetSeasons()`. -/
structure ShowData (Ep : Type) where
  title : String
  seasons : List (Season Ep)
deriving DecidableEq, Repr

/-- The value `anirip.Error{Message, Err}` returned by the action. -/
structure AniripError where
  Message : String
  Err : Option String
deriving DecidableEq, Repr

/-- The outside world of `main`: state `σ`, episode handles `Ep`. -/
structure World (σ Ep : Type) where
  /-- The constant `string(os.PathSeparator)`. -/
  pathSeparator : String
  /-- The variable `tempDir`. -/
  tempDir : String
  /-- The call `strings.ToLower`. -/
  toLower : String → String
  /-- The call `url.Parse(showURL)` followed by `.Host`; `none` is a parse error. -/
  urlHost : String → Option String
  /-- The call `session.Login(username, password, tempDir)`. -/
  login : Provider → String → String → String → σ → Option String × σ
  /-- The call `show.ScrapeEpisodes(showURL, cookies)`. -/
  scrapeEpisodes : Provider → String → σ → Except String (ShowData Ep) × σ
  /-- The call `os.Mkdir(path, 0777)`, its result ignored. -/
  mkdir : String → σ → σ
  /-- The call `episode.GetEpisodeInfo(quality, cookies)`. -/
  getEpisodeInfo : Ep → String → σ → Option String × σ
  /-- The call `episode.GetFileName()`. -/
  getFileName : Ep → σ → String
  /-- The call `os.Stat(path)`: `true` when it returns no error. -/
  stat : String → σ → Bool
  /-- The call `episode.DownloadEpisode(quality, tempDir, cookies)`. -/
  downloadEpisode : Ep → String → String → σ → Option String × σ
  /-- The call `trimMKV(ms, tempDir)`. -/
  trimMKV : Int → String → σ → Option String × σ
  /-- The call `episode.DownloadSubtitles(language, offset, tempDir, cookies)`. -/
  downloadSubtitles : Ep → String → Int → String → σ → Except String String × σ
  /-- The call `mergeSubtitles(audioLang, subtitleLang, tempDir)`. -/
  mergeSubtitles : String → String → String → σ → Option String × σ
  /-- The call `cleanMKV(tempDir)`. -/
  cleanMKV : String → σ → Option String × σ
  /-- The call `anirip.Rename(src, dst, retries)`. -/
  rename : String → String → Int → σ → Option String × σ

/-- One entry of the trace: a call into the world, or a console line. -/
inductive Call (Ep : Type) where
  | say (c : Colour) (msg : String)
  | login (p : Provider)
  | scrapeEpisodes (p : Provider) (showURL : String)
  | mkdir (path : String)
  | getEpisodeInfo (episode : Ep) (quality : String)
  | stat (path : String)
  | downloadEpisode (episode : Ep) (quality : String)
  | trimMKV (ms : Int)
  | downloadSubtitles (episode : Ep) (language : String) (offset : Int)
  | mergeSubtitles (audioLang subtitleLang : String)
  | cleanMKV
  | rename (src dst : String) (retries : Int)
deriving DecidableEq, Repr

/-- The variables of `main` the action reads and writes, with the world and the trace. -/
structure St (σ Ep : Type) where
  world : σ
  trace : List (Call Ep)
  daisukiIntroTrim : Bool
  aniplexIntroTrim : Bool
  sunriseIntroTrim : Bool

/-- The variables of `main` set from the command line before the action runs. -/
structure Config where
  username : String
  password : String
  language : String
  quality : String
  trim : String
deriving DecidableEq, Repr

/-- Append one entry to the trace. -/
def St.log {σ Ep : Type} (s : St σ Ep) (c : Call Ep) : St σ Ep :=
  { s with trace := s.trace ++ [c] }

/-- Record the call `c`, run it on the world and keep its result. -/
def St.call {σ Ep α : Type} (s : St σ Ep) (c : Call Ep) (op : σ → α × σ) : α × St σ Ep :=
  ((op s.world).1, { s with world := (op s.world).2, trace := s.trace ++ [c] })

/-- The constants `daisukiIntroLength`, `aniplexIntroLength`, `sunriseIntroLength`. -/
def daisukiIntroLength : Int := 5040

/-- See `daisukiIntroLength`. -/
def aniplexIntroLength : Int := 6747

/-- See `daisukiIntroLength`. -/
def sunriseIntroLength : Int := 8227

/-- The map `seasonMap`; a key that is absent yields the empty string. -/
def seasonMap (n : Int) : String :=
  if n = 0 then "Specials"
  else if n = 1 then "Season One"
  else if n = 2 then "Season Two"
  else if n = 3 then "Season Three"
  else if n = 4 then "Season Four"
  else if n = 5 then "Season Five"
  else if n = 6 then "Season Six"
  else if n = 7 then "Season Seven"
  else if n = 8 then "Season Eight"
  else if n = 9 then "Season Nine"
  else if n = 10 then "Season Ten"
  else ""

/-- Lines 171-180: the three `if` statements that set the trim variables. -/
def mainAction.setTrim {σ Ep : Type} (w : World σ Ep) (trim : String) (s : St σ Ep) :
    St σ Ep :=
  let s := if stringsContains (w.toLower trim) "daisuki"
    then { s with daisukiIntroTrim := true } else s
  let s := if stringsContains (w.toLower trim) "aniplex"
    then { s with daisukiIntroTrim := true } else s
  let s := if stringsContains (w.toLower trim) "sunrise"
    then { s with daisukiIntroTrim := true } else s
  s

/-- Lines 261-280: merge, clean and placement, after the subtitles are there. -/
def mainAction.finish {σ Ep : Type} (w : World σ Ep) (dir : String) (episode : Ep)
    (subtitleLang : String) (s : St σ Ep) : St σ Ep :=
  let s := s.log (.say .white "[anirip] Merging subtitles into mkv container...\n")
  match s.call (.mergeSubtitles "jpn" subtitleLang) (w.mergeSubtitles "jpn" subtitleLang w.tempDir) with
  | (some err, s) => s.log (.say .red ("[anirip] " ++ err ++ "\n"))
  | (none, s) =>
    let s := s.log (.say .white "[anirip] Cleaning MKV...\n")
    match s.call .cleanMKV (w.cleanMKV w.tempDir) with
    | (some err, s) => s.log (.say .red ("[anirip] " ++ err ++ "\n"))
    | (none, s) =>
      let src := w.tempDir ++ w.pathSeparator ++ "episode.mkv"
      let dst := dir ++ w.pathSeparator ++ w.getFileName episode s.world ++ ".mkv"
      match s.call (.rename src dst 10) (w.rename src dst 10) with
      | (some err, s) =>
        (s.log (.say .red (err ++ "\n\n"))).log
          (.say .green "[anirip] Downloading and merging completed successfully.\n")
      | (none, s) =>
        s.log (.say .green "[anirip] Downloading and merging completed successfully.\n")

/-- Lines 252-259, then `finish`: the subtitle download with the offset `subOffset`. -/
def mainAction.subtitles {σ Ep : Type} (w : World σ Ep) (cfg : Config) (dir : String)
    (episode : Ep) (subOffset : Int) (s : St σ Ep) : St σ Ep :=
  let s := s.log (.say .white
    ("[anirip] Downloading subtitles with a total offset of " ++ Itoa subOffset ++ "ms...\n"))
  match s.call (.downloadSubtitles episode cfg.language subOffset)
      (w.downloadSubtitles episode cfg.language subOffset w.tempDir) with
  | (.error err, s) => s.log (.say .red ("[anirip] " ++ err ++ "\n"))
  | (.ok subtitleLang, s) => mainAction.finish w dir episode subtitleLang s

/-- Lines 242-250, then `subtitles`: the Sunrise trim. -/
def mainAction.trimSunrise {σ Ep : Type} (w : World σ Ep) (cfg : Config) (dir : String)
    (episode : Ep) (subOffset : Int) (s : St σ Ep) : St σ Ep :=
  if s.sunriseIntroTrim then
    let subOffset := wrapInt (subOffset + sunriseIntroLength)
    let s := s.log (.say .white
      ("[anirip] Trimming off Sunrise Intro - " ++ Itoa sunriseIntroLength ++ "ms\n"))
    match s.call (.trimMKV sunriseIntroLength) (w.trimMKV sunriseIntroLength w.tempDir) with
    | (some err, s) => s.log (.say .red ("[anirip] " ++ err ++ "\n"))
    | (none, s) => mainAction.subtitles w cfg dir episode subOffset s
  else mainAction.subtitles w cfg dir episode subOffset s

/-- Lines 232-240, then `trimSunrise`: the Aniplex trim. -/
def mainAction.trimAniplex {σ Ep : Type} (w : World σ Ep) (cfg : Config) (dir : String)
    (episode : Ep) (subOffset : Int) (s : St σ Ep) : St σ Ep :=
  if s.aniplexIntroTrim then
    let subOffset := wrapInt (subOffset + aniplexIntroLength)
    let s := s.log (.say .white
      ("[anirip] Trimming off Aniplex Intro - " ++ Itoa aniplexIntroLength ++ "ms\n"))
    match s.call (.trimMKV aniplexIntroLength) (w.trimMKV aniplexIntroLength w.tempDir) with
    | (some err, s) => s.log (.say .red ("[anirip] " ++ err ++ "\n"))
    | (none, s) => mainAction.trimSunrise w cfg dir episode subOffset s
  else mainAction.trimSunrise w cfg dir episode subOffset s

/-- Lines 222-230, then `trimAniplex`: the Daisuki trim. -/
def mainAction.trimDaisuki {σ Ep : Type} (w : World σ Ep) (cfg : Config) (dir : String)
    (episode : Ep) (subOffset : Int) (s : St σ Ep) : St σ Ep :=
  if s.daisukiIntroTrim then
    let subOffset := wrapInt (subOffset + daisukiIntroLength)
    let s := s.log (.say .white
      ("[anirip] Trimming off Daisuki Intro - " ++ Itoa daisukiIntroLength ++ "ms\n"))
    match s.call (.trimMKV daisukiIntroLength) (w.trimMKV daisukiIntroLength w.tempDir) with
    | (some err, s) => s.log (.say .red ("[anirip] " ++ err ++ "\n"))
    | (none, s) => mainAction.trimAniplex w cfg dir episode subOffset s
  else mainAction.trimAniplex w cfg dir episode subOffset s

/-- Lines 200-281: the body of the loop over the episodes of a season, where
`dir` is `show.GetTitle() + string(os.PathSeparator) + seasonMap[season.GetNumber()]`.
Each `continue` ends the body with the state reached. -/
def mainAction.episode {σ Ep : Type} (w : World σ Ep) (cfg : Config) (dir : String)
    (episode : Ep) (s : St σ Ep) : St σ Ep :=
  let s := s.log (.say .white "[anirip] Getting Episode Info...\n")
  match s.call (.getEpisodeInfo episode cfg.quality) (w.getEpisodeInfo episode cfg.quality) with
  | (some err, s) => s.log (.say .red ("[anirip] " ++ err))
  | (none, s) =>
    let path := dir ++ w.pathSeparator ++ w.getFileName episode s.world ++ ".mkv"
    let s := s.log (.stat path)
    if w.stat path s.world then
      s.log (.say .green ("[anirip] " ++ w.getFileName episode s.world ++ ".mkv has already been downloaded successfully..." ++ "\n"))
    else
      let subOffset : Int := 0
      let s := s.log (.say .cyan ("[anirip] Downloading " ++ w.getFileName episode s.world ++ "\n"))
      let s := s.log (.say .white "[anirip] Downloading video...\n")
      match s.call (.downloadEpisode episode cfg.quality)
          (w.downloadEpisode episode cfg.quality w.tempDir) with
      | (some err, s) => s.log (.say .red ("[anirip] " ++ err ++ "\n"))
      | (none, s) => mainAction.trimDaisuki w cfg dir episode subOffset s

/-- Lines 147-156: the provider chosen from the host of the show URL. -/
def mainAction.provider {σ Ep : Type} (w : World σ Ep) (host : String) : Option Provider :=
  if stringsContains (w.toLower host) "crunchyroll" then some .crunchyroll
  else if stringsContains (w.toLower host) "daisuki" then some .daisuki
  else none

/-- Lines 196-283: the loops over the seasons and episodes of a scraped show. -/
def mainAction.seasons {σ Ep : Type} (w : World σ Ep) (cfg : Config) (sh : ShowData Ep)
    (s : St σ Ep) : St σ Ep :=
  let s := (s.call (.mkdir sh.title) (fun x => ((), w.mkdir sh.title x))).2
  let s := sh.seasons.foldl
    (fun s season =>
      let dir := sh.title ++ w.pathSeparator ++ seasonMap season.number
      let s := (s.call (.mkdir dir) (fun x => ((), w.mkdir dir x))).2
      season.episodes.foldl (fun s episode => mainAction.episode w cfg dir episode s) s)
    s
  s.log (.say .cyan ("[anirip] Completed processing episodes for " ++ sh.title ++ "\n"))

/-- Lines 137-283: the body of the loop over the show URLs. `some e` is the
statement `return e`, which leaves the action; `none` is the end of the body. -/
def mainAction.url {σ Ep : Type} (w : World σ Ep) (cfg : Config) (showURL : String)
    (s : St σ Ep) : Option AniripError × St σ Ep :=
  match w.urlHost showURL with
  | none =>
    (some ⟨"There was an error parsing the URL you entered", none⟩,
      s.log (.say .red "[anirip] There was an error parsing the URL you entered.\n"))
  | some host =>
    match mainAction.provider w host with
    | none =>
      (some ⟨"The URL provided is not supported", none⟩,
        s.log (.say .red "[anirip] The URL provided is not supported."))
    | some p =>
      match s.call (.login p) (w.login p cfg.username cfg.password w.tempDir) with
      | (some err, s) =>
        (some ⟨"Unable to login to provider", some err⟩, s.log (.say .red ("[anirip] " ++ err)))
      | (none, s) =>
        let s := s.log (.say .white "[anirip] Getting a list of episodes for the show...")
        match s.call (.scrapeEpisodes p showURL) (w.scrapeEpisodes p showURL) with
        | (.error err, s) =>
          (some ⟨"Unable to get episodes", some err⟩, s.log (.say .red ("[anirip] " ++ err)))
        | (.ok sh, s) =>
          (none, mainAction.seasons w cfg sh (mainAction.setTrim w cfg.trim s))

/-- Lines 136-285: the loop over `c.Args()` and the final `return nil`. -/
def mainAction.loop {σ Ep : Type} (w : World σ Ep) (cfg : Config) :
    List String → St σ Ep → Option AniripError × St σ Ep
  | [], s => (none, s)
  | showURL :: rest, s =>
    match mainAction.url w cfg showURL s with
    | (some e, s) => (some e, s)
    | (none, s) => mainAction.loop w cfg rest s

/-- The closure `app.Action` of `main` (lines 130-286), run on the arguments
`args` from the state `s`. -/
def mainAction {σ Ep : Type} (w : World σ Ep) (cfg : Config) (args : List String)
    (s : St σ Ep) : Option AniripError × St σ Ep :=
  if args.length = 0 then
    (some ⟨"No show URLs provided", none⟩, s.log (.say .red "[anirip] No show URLs provided."))
  else mainAction.loop w cfg args s

/-- The state in which `main` starts the action: the three trim variables are
`false` and nothing has been traced. -/
def St.init {σ Ep : Type} (world : σ) : St σ Ep :=
  { world := world, trace := [], daisukiIntroTrim := false, aniplexIntroTrim := false,
    sunriseIntroTrim := false }

/-! ## A small concrete world

Used to run the action on explicit inputs: the state of the world is the list
of files that exist, an episode handle is its number, every provider call and
every media tool succeeds, and a successful rename creates its target. -/

/-- A world in which every call succeeds; `stat` looks the path up among the
files that exist and `rename` adds its target to them. -/
def demoWorld : World (List String) Nat where
  pathSeparator := "/"
  tempDir := "/tmp/anirip"
  toLower := fun str => String.mk (str.data.map Char.toLower)
  urlHost := fun showURL =>
    if showURL = "http://www.crunchyroll.com/show" then some "www.crunchyroll.com"
    else if showURL = "http://www.daisuki.net/show" then some "www.daisuki.net"
    else if showURL = "http://example.com/show" then some "example.com"
    else none
  login := fun _ _ _ _ files => (none, files)
  scrapeEpisodes := fun _ _ files => (.ok ⟨"Show", [⟨1, [1]⟩]⟩, files)
  mkdir := fun _ files => files
  getEpisodeInfo := fun _ _ files => (none, files)
  getFileName := fun episode _ => "Episode " ++ toString episode
  stat := fun path files => files.contains path
  downloadEpisode := fun _ _ _ files => (none, files)
  trimMKV := fun _ _ files => (none, files)
  downloadSubtitles := fun _ _ _ _ files => (.ok "eng", files)
  mergeSubtitles := fun _ _ _ files => (none, files)
  cleanMKV := fun _ files => (none, files)
  rename := fun _ dst _ files => (none, files ++ [dst])

/-- The command line `anirip -l English -q 1080p -t <trim> ...`. -/
def demoConfig (trim : String) : Config :=
  { username := "", password := "", language := "English", quality := "1080p", trim := trim }

/-! ## The output format as the specification describes it

These definitions follow the words of the specification, not the code; the
theorems below compare `formatSubtitles` with them. -/

/-- Concatenation of a list of lines. -/
def concatLines : List String → String
  | [] => ""
  | line :: rest => line ++ concatLines rest

/-- The 23 column names of the `Format:` line of the `[V4+ Styles]` section. -/
def styleColumnNames : List String :=
  ["Name", "Fontname", "Fontsize", "PrimaryColour", "SecondaryColour", "OutlineColour",
   "BackColour", "Bold", "Italic", "Underline", "StrikeOut", "ScaleX", "ScaleY", "Spacing",
   "Angle", "BorderStyle", "Outline", "Shadow", "Alignment", "MarginL", "MarginR", "MarginV",
   "Encoding"]

/-- The 23 fields of a style, in the order of `styleColumnNames`. -/
def styleColumnValues (style : Style) : List String :=
  [style.Name, style.FontName, Itoa style.FontSize, style.PrimaryColor, style.SecondaryColor,
   style.OutlineColor, style.BackColor, Itoa style.Bold, Itoa style.Italic,
   Itoa style.Underline, Itoa style.Strikeout, Itoa style.ScaleX, Itoa style.ScaleY,
   Itoa style.Spacing, Itoa style.Angle, Itoa style.BorderStyle, Itoa style.Outline,
   Itoa style.Shadow, Itoa style.Alignment, style.MarginLeft, style.MarginRight,
   style.MarginVert, Itoa style.Encoding]

/-- The 10 column names of the `Format:` line of the `[Events]` section. -/
def eventColumnNames : List String :=
  ["Layer", "Start", "End", "Style", "Name", "MarginL", "MarginR", "MarginV", "Effect", "Text"]

/-- The 10 fields of a dialogue line, in the order of `eventColumnNames`; the
layer is the constant 0 and the other fields are the strings of the event. -/
def eventColumnValues (event : Event) : List String :=
  ["0", event.Start, event.End, event.Style, event.Name, event.MarginLeft, event.MarginRight,
   event.MarginVert, event.Effect, event.Text]

/-- The `Style: ` line of one style. -/
def styleLine (style : Style) : String :=
  "Style: " ++ ",".intercalate (styleColumnValues style) ++ "\n"

/-- The `Dialogue: ` line of one event. -/
def dialogueLine (event : Event) : String :=
  "Dialogue: " ++ ",".intercalate (eventColumnValues event) ++ "\n"

/-- The `[Script Info]` header: title, script type, wrap style, canvas 656 by 368. -/
def scriptInfoSpec (doc : SubtitleScript) : String :=
  concatLines ["[Script Info]\n", "Title: " ++ doc.Title ++ "\n", "ScriptType: v4.00+\n",
    "WrapStyle: " ++ Itoa doc.WrapStyle ++ "\n", "PlayResX: 656\n", "PlayResY: 368\n", "\n"]

/-- The `[V4+ Styles]` section: the format line, then one line per style. -/
def stylesSectionSpec (styles : List Style) : String :=
  "[V4+ Styles]\n" ++ ("Format: " ++ ", ".intercalate styleColumnNames ++ "\n")
    ++ concatLines (styles.map styleLine)

/-- The `[Events]` section: the format line, then one line per event. -/
def eventsSectionSpec (events : List Event) : String :=
  "\n[Events]\n" ++ ("Format: " ++ ", ".intercalate eventColumnNames ++ "\n")
    ++ concatLines (events.map dialogueLine)

/-- The text the specification describes for a document: the three sections in
order, with one line per style and one line per event of the document, all
blocks taken in source order. -/
def renderSpec (doc : SubtitleScript) : String :=
  scriptInfoSpec doc
    ++ stylesSectionSpec (doc.Styles.map ScriptStyles.Styles).flatten
    ++ eventsSectionSpec (doc.Events.map ScriptEvents.Events).flatten

/-- Two decimal digits of a number below 100. -/
def twoDigits (n : Nat) : String :=
  if n < 10 then "0" ++ toString n else toString n

/-- A timestamp `H:MM:SS.CC` moved forward by `offsetMs` milliseconds of wall
clock, as the specification asks of the transcoder; a text that is not of
that shape is left as it is. -/
def shiftTimestampSpec (offsetMs : Nat) (ts : String) : String :=
  let value := fun (cs : List Char) => cs.foldl (fun n c => 10 * n + (c.toNat - 48)) 0
  match ts.data.splitOnP (fun c => c == ':' || c == '.') with
  | [h, m, sec, cs] =>
    let total := (((value h * 60 + value m) * 60 + value sec) * 100 + value cs) * 10 + offsetMs
    toString (total / 3600000) ++ ":" ++ twoDigits (total / 60000 % 60) ++ ":"
      ++ twoDigits (total / 1000 % 60) ++ "." ++ twoDigits (total / 10 % 100)
  | _ => ts

/-- A document with every event timestamp moved forward by `offsetMs`. -/
def shiftScriptSpec (offsetMs : Nat) (doc : SubtitleScript) : SubtitleScript :=
  { doc with Events := doc.Events.map fun block =>
      ⟨block.Events.map fun event =>
        { event with Start := shiftTimestampSpec offsetMs event.Start,
                     End := shiftTimestampSpec offsetMs event.End }⟩ }

/-! ## Concrete documents and track lists -/

/-- A style as the provider sends it. -/
def demoStyle : Style :=
  ⟨1, "Default", "Arial", 20, "&H00FFFFFF", "&H0000FFFF", "&H00000000", "&H00000000",
   0, 0, 0, 0, 100, 100, 0, 0, 1, 2, 1, 2, "0020", "0020", "0018", 0⟩

/-- A second style. -/
def demoStyleItalic : Style :=
  { demoStyle with ID := 2, Name := "Italic", Italic := 1 }

/-- An event from 1 s to 2 s. -/
def demoEvent : Event :=
  ⟨1, "0:00:01.00", "0:00:02.00", "Default", "", "0000", "0000", "0000", "", "Hello"⟩

/-- A document with one styles block and one events block. -/
def demoScript : SubtitleScript :=
  ⟨7, "Demo", 656, 368, "enUS", "English", "", "", "", 0, [⟨[demoStyle]⟩], [⟨[demoEvent]⟩]⟩

/-- A document with two styles blocks. -/
def twoBlockScript : SubtitleScript :=
  { demoScript with Styles := [⟨[demoStyle]⟩, ⟨[demoStyleItalic]⟩] }

/-- A well-formed document with no styles block and no events block. -/
def emptyScript : SubtitleScript :=
  { demoScript with Styles := [], Events := [] }

/-- A track with the given id and title. -/
def demoTrack (id : Int) (title : String) : Subtitle :=
  { Subtitle.zero with ID := id, Title := title }

/-- A stand-in for the digest parameter of `generateKey`, to run it on explicit
inputs: 20 bytes, each the length of the input modulo 256. It is not SHA-1. -/
def demoDigest (bytes : List Nat) : Mathlib.Vector Nat 20 :=
  ⟨List.replicate 20 (bytes.length % 256), by simp⟩

/-- The fields of a dialogue line that follow `End`, with the line end. -/
def dialogueAfterEnd (event : Event) : String :=
  event.Style ++ "," ++ event.Name ++ "," ++ event.MarginLeft ++ "," ++ event.MarginRight
    ++ "," ++ event.MarginVert ++ "," ++ event.Effect ++ "," ++ event.Text ++ "\n"

/-- The three tracks of the language-resolution example of the specification. -/
def demoTracks : List Subtitle :=
  [demoTrack 1 "Spanish", demoTrack 2 "English", demoTrack 3 "French"]

/-- A listing response that carries the embedded-subtitle marker. -/
def markedListing : String :=
  "<?xml version=\"1.0\"?><subtitles><media_id>None</media_id></subtitles>"

/-- The state in which the action starts in `demoWorld`, the files `files` existing. -/
def demoState (files : List String) : St (List String) Nat := St.init files

/-- The trace of the action run on `args` in `demoWorld`, from the files `files`,
with the trim selector `trim`. -/
def demoTrace (trim : String) (args : List String) (files : List String) : List (Call Nat) :=
  (mainAction demoWorld (demoConfig trim) args (demoState files)).2.trace

/-- The episodes whose metadata fetch a trace records, in the order of the
calls: the episodes the pipeline has attempted. -/
def attempted {Ep : Type} (trace : List (Call Ep)) : List Ep :=
  trace.filterMap fun c =>
    match c with
    | .getEpisodeInfo episode _ => some episode
    | _ => none

/-- A world like `demoWorld` whose show has the episodes 1, 2, 3 in one season,
where the video download of episode 1 and the subtitle download of episode 2 fail. -/
def failingWorld : World (List String) Nat :=
  { demoWorld with
    scrapeEpisodes := fun _ _ files => (.ok ⟨"Show", [⟨1, [1, 2, 3]⟩]⟩, files)
    downloadEpisode := fun episode _ _ files =>
      if episode = 1 then (some "no stream", files) else (none, files)
    downloadSubtitles := fun episode _ _ _ files =>
      if episode = 2 then (.error "no subtitles", files) else (.ok "eng", files) }

/-- Whether a trace entry is the invocation of a step of the episode pipeline:
metadata fetch, video download, trim, subtitle download, merge, clean, placement. -/
def Call.isStep {Ep : Type} : Call Ep → Bool
  | .getEpisodeInfo _ _ => true
  | .downloadEpisode _ _ => true
  | .trimMKV _ => true
  | .downloadSubtitles _ _ _ => true
  | .mergeSubtitles _ _ => true
  | .cleanMKV => true
  | .rename _ _ _ => true
  | _ => false

/-- Run again, on the world in the state `x`, the call that a trace entry
records: whether it fails as one of the steps metadata fetch, video download,
trim, subtitle download, merge, clean, and the state of the world after it.
A console line and `os.Stat` leave the world as it is. -/
def replayCall {σ Ep : Type} (w : World σ Ep) (cfg : Config) : Call Ep → σ → Bool × σ
  | .say _ _, x => (false, x)
  | .login p, x => (false, (w.login p cfg.username cfg.password w.tempDir x).2)
  | .scrapeEpisodes p showURL, x => (false, (w.scrapeEpisodes p showURL x).2)
  | .mkdir path, x => (false, w.mkdir path x)
  | .getEpisodeInfo episode quality, x =>
    ((w.getEpisodeInfo episode quality x).1.isSome, (w.getEpisodeInfo episode quality x).2)
  | .stat _, x => (false, x)
  | .downloadEpisode episode quality, x =>
    ((w.downloadEpisode episode quality w.tempDir x).1.isSome,
      (w.downloadEpisode episode quality w.tempDir x).2)
  | .trimMKV ms, x => ((w.trimMKV ms w.tempDir x).1.isSome, (w.trimMKV ms w.tempDir x).2)
  | .downloadSubtitles episode language offset, x =>
    (match (w.downloadSubtitles episode language offset w.tempDir x).1 with
      | .error _ => true
      | .ok _ => false,
      (w.downloadSubtitles episode language offset w.tempDir x).2)
  | .mergeSubtitles audioLang subtitleLang, x =>
    ((w.mergeSubtitles audioLang subtitleLang w.tempDir x).1.isSome,
      (w.mergeSubtitles audioLang subtitleLang w.tempDir x).2)
  | .cleanMKV, x => ((w.cleanMKV w.tempDir x).1.isSome, (w.cleanMKV w.tempDir x).2)
  | .rename src dst retries, x => (false, (w.rename src dst retries x).2)

/-- The state of the world after the calls of a trace have been run again, in
order, from the state `x`. -/
def replayWorld {σ Ep : Type} (w : World σ Ep) (cfg : Config) : List (Call Ep) → σ → σ
  | [], x => x
  | c :: rest, x => replayWorld w cfg rest (replayCall w cfg c x).2

/-- Running the calls of a trace again from the state `x`, no step is invoked
after a step that fails: when an entry fails, none of the entries after it is
the invocation of a step. -/
def stopsAtFailure {σ Ep : Type} (w : World σ Ep) (cfg : Config) : List (Call Ep) → σ → Bool
  | [], _ => true
  | c :: rest, x =>
    (!(replayCall w cfg c x).1 || rest.all fun d => !d.isStep)
      && stopsAtFailure w cfg rest (replayCall w cfg c x).2

/-- A world like `demoWorld` in which every trim fails. -/
def trimFailWorld : World (List String) Nat :=
  { demoWorld with trimMKV := fun _ _ files => (some "mkvmerge failed", files) }

/-! ## Theorems: key derivation -/

theorem wrapInt_of_bounds {x : Int} (h0 : -2 ^ 63 ≤ x) (h1 : x < 2 ^ 63) : wrapInt x = x := by
  unfold wrapInt Int.bmod
  norm_num at h0 h1 ⊢
  split <;> omega

theorem xor_magic_bounds (n : Nat) (h : n < 2 ^ 32) :
    0 ≤ Int.xor magic (n : Int) ∧ Int.xor magic (n : Int) < 2 ^ 32 := by
  have hx : Int.xor magic (n : Int) = ((88140282 ^^^ n : Nat) : Int) := rfl
  rw [hx]
  have hlt : 88140282 ^^^ n < 2 ^ 32 := Nat.xor_lt_two_pow (by norm_num) h
  constructor
  · exact Int.natCast_nonneg _
  · exact_mod_cast hlt

theorem floor_magic : ⌊Real.sqrt 6.9 * 2 ^ 25⌋ = magic := by
  rw [Int.floor_eq_iff]
  have h2 : (0:ℝ) < 2 ^ 25 := by positivity
  constructor
  · have hle : ((magic : ℤ) : ℝ) / 2 ^ 25 ≤ Real.sqrt 6.9 := by
      apply Real.le_sqrt_of_sq_le
      simp only [magic]; norm_num
    calc ((magic : ℤ) : ℝ) = ((magic : ℤ) : ℝ) / 2 ^ 25 * 2 ^ 25 := by field_simp
      _ ≤ Real.sqrt 6.9 * 2 ^ 25 := by gcongr
  · have hlt : Real.sqrt 6.9 < (((magic : ℤ) : ℝ) + 1) / 2 ^ 25 := by
      rw [Real.sqrt_lt' (by simp only [magic]; norm_num)]
      simp only [magic]; norm_num
    calc Real.sqrt 6.9 * 2 ^ 25 < (((magic : ℤ) : ℝ) + 1) / 2 ^ 25 * 2 ^ 25 := by gcongr
      _ = ((magic : ℤ) : ℝ) + 1 := by field_simp

theorem pad_digest (l : List Nat) (hl : l.length = 20) :
    (List.range 32).foldl (fun final i => final ++ [((List.range 20).foldl
      (fun long i => long.set i (l.getD i 0)) (List.replicate 32 0)).getD i 0]) []
    = l ++ List.replicate 12 0 := by
  iterate 20 (rcases l with _ | ⟨_, l⟩; · simp at hl)
  rcases l with _ | ⟨_, l⟩
  · simp [List.range, List.range.loop, List.replicate]
  · simp at hl

theorem createString_seed : createString [20, 97, 1, 2] = some "$&).6CXzPHw=2N_+isZK" := by
  decide

theorem eq3_of_small (subtitleID : Int) (h0 : 0 ≤ subtitleID) (h1 : subtitleID < 2 ^ 32) :
    generateKey.eq3 subtitleID =
      Int.xor (Int.xor (Int.xor subtitleID magic) ((Int.xor subtitleID magic) >>> 3))
        (Int.xor magic subtitleID * 32) := by
  obtain ⟨n, rfl⟩ := Int.eq_ofNat_of_zero_le h0
  have hn : n < 2 ^ 32 := by exact_mod_cast h1
  obtain ⟨hb0, hb1⟩ := xor_magic_bounds n hn
  unfold generateKey.eq3
  simp only
  rw [wrapInt_of_bounds (by omega) (by omega)]

/-- C1. For every subtitle id with 0 ≤ id < 2^32, `generateKey` returns a key of
exactly 32 bytes: the first 20 are the SHA-1 digest of the bytes of the seed
string `createString([20,97,1,2])` followed by the decimal text of eq3, the
last 12 are zero, where M = floor(sqrt(6.9) * 2^25) = 88140282, eq1 = M XOR id
and eq3 = (id XOR M) XOR ((id XOR M) >> 3) XOR (eq1 * 32), with no overflow. -/
theorem generateKey_digest_then_zeros (sha1Sum : List Nat → Mathlib.Vector Nat 20)
    (subtitleID : Int) (h0 : 0 ≤ subtitleID) (h1 : subtitleID < 2 ^ 32) :
    ⌊Real.sqrt 6.9 * 2 ^ 25⌋ = magic ∧ magic = 88140282 ∧
    ∃ seed key, createString [20, 97, 1, 2] = some seed ∧
      generateKey sha1Sum subtitleID = some key ∧
      key.length = 32 ∧
      key.take 20 = (sha1Sum (goBytes (seed ++ Itoa
        (Int.xor (Int.xor (Int.xor subtitleID magic) ((Int.xor subtitleID magic) >>> 3))
          (Int.xor magic subtitleID * 32))))).toList ∧
      key.drop 20 = List.replicate 12 0 := by
  have hk : generateKey sha1Sum subtitleID = some ((sha1Sum (goBytes ("$&).6CXzPHw=2N_+isZK"
      ++ Itoa (generateKey.eq3 subtitleID)))).toList ++ List.replicate 12 0) := by
    unfold generateKey generateKey.hashString
    rw [createString_seed]
    simp only
    rw [pad_digest _ (Mathlib.Vector.toList_length _)]
  refine ⟨floor_magic, rfl, "$&).6CXzPHw=2N_+isZK", _, createString_seed, hk, ?_, ?_, ?_⟩
  · simp
  · rw [eq3_of_small subtitleID h0 h1]
    simp [List.take_append_of_le_length]
  · simp [List.drop_append_of_le_length]

/-- Witness of C1 at the subtitle id 12345, where eq3 is 2918447771. -/
theorem generateKey_digest_then_zeros_witness :
    (0 : Int) ≤ 12345 ∧ (12345 : Int) < 2 ^ 32 ∧ generateKey.eq3 12345 = 2918447771 ∧
    ∃ seed key, createString [20, 97, 1, 2] = some seed ∧
      generateKey demoDigest 12345 = some key ∧
      key.length = 32 ∧
      key.take 20 = (demoDigest (goBytes (seed ++ Itoa
        (Int.xor (Int.xor (Int.xor 12345 magic) ((Int.xor 12345 magic) >>> 3))
          (Int.xor magic 12345 * 32))))).toList ∧
      key.drop 20 = List.replicate 12 0 :=
  ⟨by decide, by decide, by decide,
    (generateKey_digest_then_zeros demoDigest 12345 (by decide) (by decide)).2.2⟩

/-- C2, as the specification states it, fails at the subtitle id 0: the string
hashed by `generateKey` is not five characters followed by the decimal text of
eq3; it is longer. -/
theorem hashString_five_chars_counterexample :
    ¬ ∃ cs : List Char, cs.length = 5 ∧
      generateKey.hashString 0 = some (String.mk cs ++ Itoa (generateKey.eq3 0)) := by
  rintro ⟨cs, hlen, h⟩
  have e : generateKey.hashString 0 = some ("$&).6CXzPHw=2N_+isZK" ++ Itoa (generateKey.eq3 0)) := by
    decide
  rw [e] at h
  have h2 := congrArg String.length (Option.some.inj h)
  simp only [String.length_append] at h2
  have h3 : (String.mk cs).length = cs.length := rfl
  have h4 : ("$&).6CXzPHw=2N_+isZK" : String).length = 20 := by decide
  omega

/-- C2, amended. For every subtitle id, the string hashed by `generateKey` is
exactly 20 characters, one per term of the 20 terms F(2), ..., F(21) of the
Fibonacci-style sequence F(0) = 1, F(1) = 2, F(j+2) = F(j) + F(j+1), each term t
mapped to chr(t mod 97 + 33), followed by the decimal text of eq3. -/
theorem hashString_twenty_chars (subtitleID : Int) :
    ((List.range 20).map fun k => Char.ofNat (fibFrom 1 2 (k + 2) % 97 + 33).toNat).length = 20 ∧
    generateKey.hashString subtitleID =
      some (String.mk ((List.range 20).map fun k => Char.ofNat (fibFrom 1 2 (k + 2) % 97 + 33).toNat)
        ++ Itoa (generateKey.eq3 subtitleID)) := by
  constructor
  · simp
  · unfold generateKey.hashString
    rw [createString_seed]
    have e : String.mk ((List.range 20).map fun k =>
        Char.ofNat (fibFrom 1 2 (k + 2) % 97 + 33).toNat) = "$&).6CXzPHw=2N_+isZK" := by
      decide
    rw [e]

/-! ## Theorems: transcoding -/

theorem styleStep_eq (styles : String) (style : Style) :
    formatSubtitles.styleStep styles style = styles ++ styleLine style := by
  unfold formatSubtitles.styleStep styleLine styleColumnValues
  simp only [String.intercalate, String.intercalate.go, String.append_assoc]

theorem eventStep_eq (events : String) (event : Event) :
    formatSubtitles.eventStep events event = events ++ dialogueLine event := by
  unfold formatSubtitles.eventStep dialogueLine eventColumnValues
  simp only [String.intercalate, String.intercalate.go, String.append_assoc]
  rfl

theorem foldl_styleStep (l : List Style) (acc : String) :
    l.foldl formatSubtitles.styleStep acc = acc ++ concatLines (l.map styleLine) := by
  induction l generalizing acc with
  | nil => simp [concatLines]
  | cons st l ih =>
    simp only [List.foldl_cons, List.map_cons, concatLines, ih, styleStep_eq, String.append_assoc]

theorem foldl_eventStep (l : List Event) (acc : String) :
    l.foldl formatSubtitles.eventStep acc = acc ++ concatLines (l.map dialogueLine) := by
  induction l generalizing acc with
  | nil => simp [concatLines]
  | cons ev l ih =>
    simp only [List.foldl_cons, List.map_cons, concatLines, ih, eventStep_eq, String.append_assoc]

theorem header_eq (doc : SubtitleScript) : formatSubtitles.header doc = scriptInfoSpec doc := by
  unfold formatSubtitles.header scriptInfoSpec
  simp only [concatLines, String.append_assoc]
  rfl

set_option maxRecDepth 4000 in
theorem stylesInit_eq : formatSubtitles.stylesInit =
    "[V4+ Styles]\n" ++ ("Format: " ++ ", ".intercalate styleColumnNames ++ "\n") := by
  decide

set_option maxRecDepth 4000 in
theorem eventsInit_eq : formatSubtitles.eventsInit =
    "\n[Events]\n" ++ ("Format: " ++ ", ".intercalate eventColumnNames ++ "\n") := by
  decide

theorem formatSubtitles_first_blocks {Err : Type}
    (xmlUnmarshal : String → Except Err SubtitleScript) (subString : String)
    (doc : SubtitleScript) (sb : ScriptStyles) (restS : List ScriptStyles)
    (eb : ScriptEvents) (restE : List ScriptEvents)
    (hparse : xmlUnmarshal subString = .ok doc)
    (hS : doc.Styles = sb :: restS) (hE : doc.Events = eb :: restE) :
    formatSubtitles xmlUnmarshal subString =
      .ret (scriptInfoSpec doc ++ stylesSectionSpec sb.Styles ++ eventsSectionSpec eb.Events,
        none) := by
  unfold formatSubtitles
  rw [hparse]
  simp only [hS, hE, foldl_styleStep, foldl_eventStep, header_eq, stylesInit_eq, eventsInit_eq,
    stylesSectionSpec, eventsSectionSpec]

theorem dialogueLine_eq (event : Event) :
    dialogueLine event =
      "Dialogue: 0," ++ event.Start ++ "," ++ event.End ++ "," ++ dialogueAfterEnd event := by
  unfold dialogueLine eventColumnValues dialogueAfterEnd
  simp only [String.intercalate, String.intercalate.go, String.append_assoc]
  rfl

set_option maxRecDepth 8000 in
/-- C3, as the specification states it, fails for the one-event document
`demoScript` at the offset 5040 ms: the specification asks for the Dialogue
line to start at 0:00:06.04 and end at 0:00:07.04, and `formatSubtitles`, which
takes no offset, emits the source timestamps 0:00:01.00 and 0:00:02.00. -/
theorem formatSubtitles_shift_counterexample :
    shiftTimestampSpec 5040 "0:00:01.00" = "0:00:06.04" ∧
    shiftTimestampSpec 5040 "0:00:02.00" = "0:00:07.04" ∧
    formatSubtitles (fun _ => (.ok demoScript : Except String SubtitleScript)) "" =
      .ret (scriptInfoSpec demoScript ++ stylesSectionSpec [demoStyle]
        ++ ("\n[Events]\nFormat: Layer, Start, End, Style, Name, MarginL, MarginR, MarginV, Effect, Text\n"
        ++ "Dialogue: 0,0:00:01.00,0:00:02.00,Default,,0000,0000,0000,,Hello\n"), none) ∧
    formatSubtitles (fun _ => (.ok demoScript : Except String SubtitleScript)) "" ≠
      formatSubtitles (fun _ => (.ok (shiftScriptSpec 5040 demoScript) :
        Except String SubtitleScript)) "" := by
  decide

/-- C3, amended. `formatSubtitles` takes no time offset: for every parsed
document with at least one styles block and one events block, the Dialogue
lines it emits are, in order, those of the events of the first events block,
each carrying the Start and End of its source event verbatim (not shifted),
and the [Script Info] and [V4+ Styles] sections before them are determined by
the document alone. -/
theorem formatSubtitles_timestamps_verbatim {Err : Type}
    (xmlUnmarshal : String → Except Err SubtitleScript) (subString : String)
    (doc : SubtitleScript) (sb : ScriptStyles) (restS : List ScriptStyles)
    (eb : ScriptEvents) (restE : List ScriptEvents)
    (hparse : xmlUnmarshal subString = .ok doc)
    (hS : doc.Styles = sb :: restS) (hE : doc.Events = eb :: restE) :
    formatSubtitles xmlUnmarshal subString =
      .ret (scriptInfoSpec doc ++ stylesSectionSpec sb.Styles
        ++ (formatSubtitles.eventsInit ++ concatLines (eb.Events.map fun event =>
          "Dialogue: 0," ++ event.Start ++ "," ++ event.End ++ "," ++ dialogueAfterEnd event)),
        none) := by
  rw [formatSubtitles_first_blocks xmlUnmarshal subString doc sb restS eb restE hparse hS hE]
  have hmap : (eb.Events.map fun event =>
      "Dialogue: 0," ++ event.Start ++ "," ++ event.End ++ "," ++ dialogueAfterEnd event)
      = eb.Events.map dialogueLine := by
    apply List.map_congr_left
    intro event _
    exact (dialogueLine_eq event).symm
  rw [hmap, eventsInit_eq]
  rfl

set_option maxRecDepth 8000 in
/-- Witness of the amended C3 on `demoScript`. -/
theorem formatSubtitles_timestamps_verbatim_witness :
    formatSubtitles (fun _ => (.ok demoScript : Except String SubtitleScript)) "" =
      .ret (scriptInfoSpec demoScript ++ stylesSectionSpec [demoStyle]
        ++ (formatSubtitles.eventsInit ++ concatLines ([demoEvent].map fun event =>
          "Dialogue: 0," ++ event.Start ++ "," ++ event.End ++ "," ++ dialogueAfterEnd event)),
        none) :=
  formatSubtitles_timestamps_verbatim (fun _ => .ok demoScript) "" demoScript
    ⟨[demoStyle]⟩ [] ⟨[demoEvent]⟩ [] rfl rfl rfl

set_option maxRecDepth 8000 in
/-- C4, as the specification states it, fails for the document `twoBlockScript`,
which has two styles blocks of one style each: the text with one `Style: ` line
per style of the document is not what `formatSubtitles` returns, which has the
line of the style of the first block only. -/
theorem formatSubtitles_all_styles_counterexample :
    (twoBlockScript.Styles.map ScriptStyles.Styles).flatten = [demoStyle, demoStyleItalic] ∧
    formatSubtitles (fun _ => (.ok twoBlockScript : Except String SubtitleScript)) "" ≠
      .ret (renderSpec twoBlockScript, none) ∧
    formatSubtitles (fun _ => (.ok twoBlockScript : Except String SubtitleScript)) "" =
      .ret (scriptInfoSpec twoBlockScript ++ stylesSectionSpec [demoStyle]
        ++ eventsSectionSpec [demoEvent], none) := by
  decide

/-- C4, amended. For every parsed document with at least one styles block and
one events block, `formatSubtitles` returns, with no error, the [Script Info]
header (Title, ScriptType v4.00+, WrapStyle, PlayResX 656, PlayResY 368), then
the [V4+ Styles] section, then the [Events] section, where the styles section
has exactly one `Style: ` line per style of the first styles block, in source
order, carrying the 23 fields in the column order of the Format line, and the
events section has exactly one `Dialogue: 0,` line per event of the first
events block, in source order, carrying the 10 fields in the column order of
the Format line; later blocks are ignored. -/
theorem formatSubtitles_three_sections {Err : Type}
    (xmlUnmarshal : String → Except Err SubtitleScript) (subString : String)
    (doc : SubtitleScript) (sb : ScriptStyles) (restS : List ScriptStyles)
    (eb : ScriptEvents) (restE : List ScriptEvents)
    (hparse : xmlUnmarshal subString = .ok doc)
    (hS : doc.Styles = sb :: restS) (hE : doc.Events = eb :: restE) :
    formatSubtitles xmlUnmarshal subString =
      .ret (renderSpec { doc with Styles := [sb], Events := [eb] }, none) ∧
    styleColumnNames.length = 23 ∧ (∀ style, (styleColumnValues style).length = 23) ∧
    eventColumnNames.length = 10 ∧ (∀ event, (eventColumnValues event).length = 10) := by
  refine ⟨?_, rfl, fun _ => rfl, rfl, fun _ => rfl⟩
  rw [formatSubtitles_first_blocks xmlUnmarshal subString doc sb restS eb restE hparse hS hE]
  simp [renderSpec, scriptInfoSpec]

set_option maxRecDepth 8000 in
/-- Witness of the amended C4 on `twoBlockScript`. -/
theorem formatSubtitles_three_sections_witness :
    formatSubtitles (fun _ => (.ok twoBlockScript : Except String SubtitleScript)) "" =
      .ret (renderSpec
        { twoBlockScript with Styles := [⟨[demoStyle]⟩], Events := [⟨[demoEvent]⟩] }, none) ∧
    styleColumnNames.length = 23 ∧ (∀ style, (styleColumnValues style).length = 23) ∧
    eventColumnNames.length = 10 ∧ (∀ event, (eventColumnValues event).length = 10) :=
  formatSubtitles_three_sections (fun _ => .ok twoBlockScript) "" twoBlockScript
    ⟨[demoStyle]⟩ [⟨[demoStyleItalic]⟩] ⟨[demoEvent]⟩ [] rfl rfl rfl

/-- C5 on the code: for the well-formed document `emptyScript`, which has no
styles block and no events block, and for `demoScript` without its events
block, `formatSubtitles` does not return an error: the index expression
`subScript.Styles[0]` (or `subScript.Events[0]`) panics. -/
theorem formatSubtitles_missing_block_panics :
    formatSubtitles (fun _ => (.ok emptyScript : Except String SubtitleScript)) "" = .crash ∧
    formatSubtitles (fun _ =>
      (.ok { demoScript with Events := [] } : Except String SubtitleScript)) "" = .crash ∧
    formatSubtitles (fun _ =>
      (.ok { demoScript with Styles := [] } : Except String SubtitleScript)) "" = .crash ∧
    ∀ e : String,
      formatSubtitles (fun _ => (.ok emptyScript : Except String SubtitleScript)) ""
        ≠ .ret ("", some e) := by
  refine ⟨rfl, rfl, rfl, ?_⟩
  intro e h
  cases h

/-! ## Theorems: track selection -/

theorem scan_first (needle : String) (l : List Subtitle) (i : Nat) (t : Subtitle)
    (hi : l[i]? = some t) (hc : stringsContains t.Title needle = true)
    (hfirst : ∀ (j : Nat) (u : Subtitle), j < i → l[j]? = some u → stringsContains u.Title needle = false) :
    getSubtitleInfo.scan needle l = some t := by
  induction l generalizing i with
  | nil => simp at hi
  | cons s rest ih =>
    cases i with
    | zero =>
      simp at hi
      subst hi
      simp [getSubtitleInfo.scan, hc]
    | succ k =>
      have hs : stringsContains s.Title needle = false := hfirst 0 s (by omega) (by simp)
      simp only [getSubtitleInfo.scan, hs]
      apply ih k
      · simpa using hi
      · intro j u hj hu
        exact hfirst (j + 1) u (by omega) (by simpa using hu)

theorem scan_none (needle : String) (l : List Subtitle)
    (h : ∀ t ∈ l, stringsContains t.Title needle = false) :
    getSubtitleInfo.scan needle l = none := by
  induction l with
  | nil => rfl
  | cons s rest ih =>
    have hs : stringsContains s.Title needle = false := h s (by simp)
    simp only [getSubtitleInfo.scan, hs]
    exact ih (fun t ht => h t (by simp [ht]))

/-- C6. Once the listing has been fetched and parsed into a list of tracks (the
embedded-subtitle test not having fired), `getSubtitleInfo` returns, with no
error: the first track whose title contains the requested language, where
containment is that of a contiguous run of the same characters (so it is
case-sensitive); if no title contains it, the first track whose title contains
"English"; and if no title contains either, in particular for the empty list,
the empty Subtitle. -/
theorem getSubtitleInfo_selects {Episode Cookies Err : Type}
    (getXML : String → Episode → Cookies → Except Err String)
    (xmlUnmarshal : String → Except Err SubListResults)
    (language : String) (episode : Episode) (cookies : Cookies)
    (xmlString : String) (tracks : List Subtitle)
    (hxml : getXML "RpcApiSubtitle_GetListing" episode cookies = .ok xmlString)
    (hmarker : stringsContains "<media_id>None</media_id>" xmlString = false)
    (hparse : xmlUnmarshal xmlString = .ok ⟨tracks⟩) :
    (∀ (i : Nat) (t : Subtitle), tracks[i]? = some t → stringsContains t.Title language = true →
      (∀ (j : Nat) (u : Subtitle), j < i → tracks[j]? = some u → stringsContains u.Title language = false) →
      getSubtitleInfo getXML xmlUnmarshal language episode cookies = (t, none)) ∧
    ((∀ t ∈ tracks, stringsContains t.Title language = false) →
      ∀ (i : Nat) (t : Subtitle), tracks[i]? = some t → stringsContains t.Title "English" = true →
      (∀ (j : Nat) (u : Subtitle), j < i → tracks[j]? = some u → stringsContains u.Title "English" = false) →
      getSubtitleInfo getXML xmlUnmarshal language episode cookies = (t, none)) ∧
    ((∀ t ∈ tracks, stringsContains t.Title language = false
        ∧ stringsContains t.Title "English" = false) →
      getSubtitleInfo getXML xmlUnmarshal language episode cookies = (Subtitle.zero, none)) ∧
    (∀ s sub : String, stringsContains s sub = true ↔
      ∃ pre post, s.data = pre ++ sub.data ++ post) := by
  refine ⟨?_, ?_, ?_, ?_⟩
  · intro i t hi hc hfirst
    unfold getSubtitleInfo
    simp only [hxml, hmarker, hparse, scan_first language tracks i t hi hc hfirst]
    simp
  · intro hno i t hi hc hfirst
    unfold getSubtitleInfo
    simp only [hxml, hmarker, hparse, scan_none language tracks hno,
      scan_first "English" tracks i t hi hc hfirst]
    simp
  · intro hno
    unfold getSubtitleInfo
    simp only [hxml, hmarker, hparse, scan_none language tracks (fun t ht => (hno t ht).1),
      scan_none "English" tracks (fun t ht => (hno t ht).2)]
    simp
  · intro s sub
    unfold stringsContains
    rw [decide_eq_true_iff]
    constructor
    · rintro ⟨pre, post, h⟩
      exact ⟨pre, post, h.symm⟩
    · rintro ⟨pre, post, h⟩
      exact ⟨pre, post, h.symm⟩

/-- Witness of C6: among the tracks Spanish, English, French the language
"German" resolves to the English track. -/
theorem getSubtitleInfo_selects_witness :
    getSubtitleInfo (fun _ (_ : Unit) (_ : Unit) => (.ok "<subtitles/>" : Except String String))
      (fun _ => .ok ⟨demoTracks⟩) "German" () () = (demoTrack 2 "English", none) :=
  (getSubtitleInfo_selects (fun _ (_ : Unit) (_ : Unit) => (.ok "<subtitles/>" : Except String String))
      (fun _ => .ok ⟨demoTracks⟩) "German" () () "<subtitles/>" demoTracks rfl (by decide)
      rfl).2.1 (by decide) 1 (demoTrack 2 "English") rfl (by decide)
    (by
      intro j u hj hu
      have hj0 : j = 0 := by omega
      subst hj0
      simp [demoTracks] at hu
      subst hu
      decide)

/-- C7 on the code: the arguments of `strings.Contains` are swapped, so for the
listing `markedListing`, which contains the marker, the test does not fire,
the listing is parsed, and the result is whatever parsing and selection yield:
the parse error when parsing fails, a track when one matches. -/
theorem getSubtitleInfo_marker_not_short_circuit :
    stringsContains markedListing "<media_id>None</media_id>" = true ∧
    stringsContains "<media_id>None</media_id>" markedListing = false ∧
    getSubtitleInfo (fun _ (_ : Unit) (_ : Unit) => (.ok markedListing : Except String String))
      (fun _ => .error "EOF") "English" () () = (Subtitle.zero, some "EOF") ∧
    getSubtitleInfo (fun _ (_ : Unit) (_ : Unit) => (.ok markedListing : Except String String))
      (fun _ => .ok ⟨demoTracks⟩) "English" () () = (demoTrack 2 "English", none) := by
  decide


/-! ## Theorems: the pipeline -/

theorem loop_append {σ Ep : Type} (w : World σ Ep) (cfg : Config) (pre rest : List String)
    (s s1 : St σ Ep) (hpre : mainAction.loop w cfg pre s = (none, s1)) :
    mainAction.loop w cfg (pre ++ rest) s = mainAction.loop w cfg rest s1 := by
  induction pre generalizing s with
  | nil =>
    simp only [mainAction.loop, Prod.mk.injEq, true_and] at hpre
    subst hpre
    rfl
  | cons u pre ih =>
    simp only [List.cons_append, mainAction.loop] at hpre ⊢
    rcases hu : mainAction.url w cfg u s with ⟨r, s2⟩
    rw [hu] at hpre
    cases r with
    | some e => simp at hpre
    | none => exact ih s2 hpre

set_option maxRecDepth 8000 in
/-- C8 on the code: the three `if` statements of lines 172-180 all set
`daisukiIntroTrim`, never `aniplexIntroTrim` or `sunriseIntroTrim`. With the
selector "aniplex" the pipeline invokes the trim with 5040 ms and passes the
offset 5040 to `DownloadSubtitles`, not 6747; with all three tokens it passes
5040, not 20014; with no token it passes 0 and invokes no trim. -/
theorem trim_selector_always_daisuki :
    (∀ (σ Ep : Type) (w : World σ Ep) (trim : String) (s : St σ Ep),
      (mainAction.setTrim w trim s).aniplexIntroTrim = s.aniplexIntroTrim ∧
      (mainAction.setTrim w trim s).sunriseIntroTrim = s.sunriseIntroTrim) ∧
    Call.trimMKV 5040 ∈ demoTrace "aniplex" ["http://www.crunchyroll.com/show"] [] ∧
    Call.trimMKV 6747 ∉ demoTrace "aniplex" ["http://www.crunchyroll.com/show"] [] ∧
    Call.downloadSubtitles 1 "English" 5040
      ∈ demoTrace "aniplex" ["http://www.crunchyroll.com/show"] [] ∧
    Call.downloadSubtitles 1 "English" 6747
      ∉ demoTrace "aniplex" ["http://www.crunchyroll.com/show"] [] ∧
    Call.downloadSubtitles 1 "English" 5040
      ∈ demoTrace "daisuki,aniplex,sunrise" ["http://www.crunchyroll.com/show"] [] ∧
    Call.downloadSubtitles 1 "English" (5040 + 6747 + 8227)
      ∉ demoTrace "daisuki,aniplex,sunrise" ["http://www.crunchyroll.com/show"] [] ∧
    Call.downloadSubtitles 1 "English" 0
      ∈ demoTrace "" ["http://www.crunchyroll.com/show"] [] ∧
    (∀ ms, Call.trimMKV ms ∉ demoTrace "" ["http://www.crunchyroll.com/show"] []) := by
  refine ⟨?_, by decide, by decide, by decide, by decide, by decide, by decide, by decide, ?_⟩
  · intro σ Ep w trim s
    unfold mainAction.setTrim
    constructor <;> (simp only; split_ifs <;> rfl)
  · intro ms h
    have ht : demoTrace "" ["http://www.crunchyroll.com/show"] [] =
        [.login .crunchyroll,
         .say .white "[anirip] Getting a list of episodes for the show...",
         .scrapeEpisodes .crunchyroll "http://www.crunchyroll.com/show",
         .mkdir "Show", .mkdir "Show/Season One",
         .say .white "[anirip] Getting Episode Info...\n",
         .getEpisodeInfo 1 "1080p",
         .stat "Show/Season One/Episode 1.mkv",
         .say .cyan "[anirip] Downloading Episode 1\n",
         .say .white "[anirip] Downloading video...\n",
         .downloadEpisode 1 "1080p",
         .say .white "[anirip] Downloading subtitles with a total offset of 0ms...\n",
         .downloadSubtitles 1 "English" 0,
         .say .white "[anirip] Merging subtitles into mkv container...\n",
         .mergeSubtitles "jpn" "eng",
         .say .white "[anirip] Cleaning MKV...\n",
         .cleanMKV,
         .rename "/tmp/anirip/episode.mkv" "Show/Season One/Episode 1.mkv" 10,
         .say .green "[anirip] Downloading and merging completed successfully.\n",
         .say .cyan "[anirip] Completed processing episodes for Show\n"] := by
      decide
    rw [ht] at h
    simp at h

set_option maxRecDepth 8000 in
/-- C9, as the specification states it, fails for the argument list whose first
URL has an unsupported host and whose second URL is a Crunchyroll show: the
action returns the error at the first URL and the second is never processed
(no login, no scrape), although run alone it is processed. -/
theorem later_url_not_processed_counterexample :
    (mainAction demoWorld (demoConfig "")
      ["http://example.com/show", "http://www.crunchyroll.com/show"] (demoState [])).1
      = some ⟨"The URL provided is not supported", none⟩ ∧
    demoTrace "" ["http://example.com/show", "http://www.crunchyroll.com/show"] []
      = [.say .red "[anirip] The URL provided is not supported."] ∧
    Call.login .crunchyroll
      ∉ demoTrace "" ["http://example.com/show", "http://www.crunchyroll.com/show"] [] ∧
    Call.login .crunchyroll ∈ demoTrace "" ["http://www.crunchyroll.com/show"] [] := by
  decide

/-- C9, amended. For every list of show URLs passed in one invocation, when
provider detection (URL parsing or host matching) or login fails for one URL,
all earlier URLs having been processed, the action returns the error at once:
processing of that URL stops after the failed step and no later URL in the
list is processed (the final state is the one reached at the failure). -/
theorem action_returns_at_failed_url {σ Ep : Type} (w : World σ Ep) (cfg : Config)
    (pre : List String) (showURL : String) (post : List String) (s s1 : St σ Ep)
    (hpre : mainAction.loop w cfg pre s = (none, s1))
    (hfail : w.urlHost showURL = none
      ∨ (∃ host, w.urlHost showURL = some host ∧ mainAction.provider w host = none)
      ∨ (∃ host p err, w.urlHost showURL = some host ∧ mainAction.provider w host = some p
          ∧ (w.login p cfg.username cfg.password w.tempDir s1.world).1 = some err)) :
    ∃ e s2, mainAction w cfg (pre ++ showURL :: post) s = (some e, s2) ∧
      mainAction w cfg (pre ++ [showURL]) s = (some e, s2) ∧
      (s2.trace = s1.trace ++ [.say .red "[anirip] There was an error parsing the URL you entered.\n"]
        ∨ s2.trace = s1.trace ++ [.say .red "[anirip] The URL provided is not supported."]
        ∨ ∃ p err, s2.trace = s1.trace ++ [.login p, .say .red ("[anirip] " ++ err)]) := by
  have hne : ∀ l : List String, (pre ++ showURL :: l).length ≠ 0 := by
    intro l; simp
  have key : ∃ e s2, mainAction.url w cfg showURL s1 = (some e, s2) ∧
      (s2.trace = s1.trace ++ [.say .red "[anirip] There was an error parsing the URL you entered.\n"]
        ∨ s2.trace = s1.trace ++ [.say .red "[anirip] The URL provided is not supported."]
        ∨ ∃ p err, s2.trace = s1.trace ++ [.login p, .say .red ("[anirip] " ++ err)]) := by
    rcases hfail with h | ⟨host, h, hp⟩ | ⟨host, p, err, h, hp, hl⟩
    · refine ⟨⟨"There was an error parsing the URL you entered", none⟩,
        s1.log (.say .red "[anirip] There was an error parsing the URL you entered.\n"),
        by simp only [mainAction.url, h], Or.inl ?_⟩
      simp [St.log]
    · refine ⟨⟨"The URL provided is not supported", none⟩,
        s1.log (.say .red "[anirip] The URL provided is not supported."),
        by simp only [mainAction.url, h, hp], Or.inr (Or.inl ?_)⟩
      simp [St.log]
    · refine ⟨⟨"Unable to login to provider", some err⟩,
        ((s1.call (.login p) (w.login p cfg.username cfg.password w.tempDir)).2).log
          (.say .red ("[anirip] " ++ err)), ?_, Or.inr (Or.inr ⟨p, err, ?_⟩)⟩
      · simp only [mainAction.url, h, hp, St.call, hl]
      · simp [St.log, St.call]
  obtain ⟨e, s2, hurl, htrace⟩ := key
  refine ⟨e, s2, ?_, ?_, htrace⟩
  · unfold mainAction
    rw [if_neg (hne post), loop_append w cfg pre _ s s1 hpre]
    simp only [mainAction.loop, hurl]
  · unfold mainAction
    rw [if_neg (hne []), loop_append w cfg pre _ s s1 hpre]
    simp only [mainAction.loop, hurl]

set_option maxRecDepth 8000 in
/-- Witness of the amended C9: an unsupported host first, a Crunchyroll show after it. -/
theorem action_returns_at_failed_url_witness :
    ∃ e s2, mainAction demoWorld (demoConfig "")
        ([] ++ "http://example.com/show" :: ["http://www.crunchyroll.com/show"]) (demoState [])
        = (some e, s2) ∧
      mainAction demoWorld (demoConfig "") ([] ++ ["http://example.com/show"]) (demoState [])
        = (some e, s2) ∧
      (s2.trace = (demoState []).trace
          ++ [.say .red "[anirip] There was an error parsing the URL you entered.\n"]
        ∨ s2.trace = (demoState []).trace ++ [.say .red "[anirip] The URL provided is not supported."]
        ∨ ∃ p err, s2.trace = (demoState []).trace ++ [.login p, .say .red ("[anirip] " ++ err)]) :=
  action_returns_at_failed_url demoWorld (demoConfig "") [] "http://example.com/show"
    ["http://www.crunchyroll.com/show"] (demoState []) (demoState []) rfl
    (Or.inr (Or.inl ⟨"example.com", by decide, by decide⟩))

set_option maxRecDepth 8000 in
/-- C10, as the specification states it, fails for the episode 1 of the show of
`demoWorld` when its artifact `Show/Season One/Episode 1.mkv` exists: the
pipeline does perform the metadata fetch `GetEpisodeInfo` for that episode,
before it looks for the artifact. -/
theorem existing_episode_metadata_counterexample :
    demoWorld.stat "Show/Season One/Episode 1.mkv" ["Show/Season One/Episode 1.mkv"] = true ∧
    Call.getEpisodeInfo 1 "1080p"
      ∈ demoTrace "" ["http://www.crunchyroll.com/show"] ["Show/Season One/Episode 1.mkv"] := by
  decide

/-- C10, amended. For every episode whose metadata fetch succeeds and whose
final artifact <ShowTitle>/<SeasonDisplayName>/<EpisodeFileName>.mkv then
exists, the pipeline performs, for that episode, the metadata fetch and the
existence check and nothing else: no video or subtitle fetch, none of trim,
merge, clean or rename, and it reports the episode as already downloaded. -/
theorem episode_with_artifact_is_skipped {σ Ep : Type} (w : World σ Ep) (cfg : Config)
    (dir : String) (episode : Ep) (s : St σ Ep)
    (hinfo : (w.getEpisodeInfo episode cfg.quality s.world).1 = none)
    (hstat : w.stat (dir ++ w.pathSeparator
        ++ w.getFileName episode (w.getEpisodeInfo episode cfg.quality s.world).2 ++ ".mkv")
        (w.getEpisodeInfo episode cfg.quality s.world).2 = true) :
    (mainAction.episode w cfg dir episode s).trace = s.trace ++
      [.say .white "[anirip] Getting Episode Info...\n",
       .getEpisodeInfo episode cfg.quality,
       .stat (dir ++ w.pathSeparator
        ++ w.getFileName episode (w.getEpisodeInfo episode cfg.quality s.world).2 ++ ".mkv"),
       .say .green ("[anirip] "
        ++ w.getFileName episode (w.getEpisodeInfo episode cfg.quality s.world).2
        ++ ".mkv has already been downloaded successfully..." ++ "\n")] ∧
    (mainAction.episode w cfg dir episode s).world
      = (w.getEpisodeInfo episode cfg.quality s.world).2 := by
  unfold mainAction.episode
  simp only [St.call, St.log, hinfo, hstat, if_true]
  simp

set_option maxRecDepth 8000 in
/-- Witness of the amended C10 in `demoWorld`, the artifact of episode 1 existing. -/
theorem episode_with_artifact_is_skipped_witness :
    (mainAction.episode demoWorld (demoConfig "") "Show/Season One" 1
        (demoState ["Show/Season One/Episode 1.mkv"])).trace =
      (demoState ["Show/Season One/Episode 1.mkv"]).trace ++
      [.say .white "[anirip] Getting Episode Info...\n",
       .getEpisodeInfo 1 (demoConfig "").quality,
       .stat ("Show/Season One" ++ demoWorld.pathSeparator
        ++ demoWorld.getFileName 1 (demoWorld.getEpisodeInfo 1 (demoConfig "").quality
          (demoState ["Show/Season One/Episode 1.mkv"]).world).2 ++ ".mkv"),
       .say .green ("[anirip] "
        ++ demoWorld.getFileName 1 (demoWorld.getEpisodeInfo 1 (demoConfig "").quality
          (demoState ["Show/Season One/Episode 1.mkv"]).world).2
        ++ ".mkv has already been downloaded successfully..." ++ "\n")] ∧
    (mainAction.episode demoWorld (demoConfig "") "Show/Season One" 1
        (demoState ["Show/Season One/Episode 1.mkv"])).world
      = (demoWorld.getEpisodeInfo 1 (demoConfig "").quality
          (demoState ["Show/Season One/Episode 1.mkv"]).world).2 :=
  episode_with_artifact_is_skipped demoWorld (demoConfig "") "Show/Season One" 1
    (demoState ["Show/Season One/Episode 1.mkv"]) rfl (by decide)


/-! ## Theorems: failures and continuation -/

theorem attempted_append {Ep : Type} (t u : List (Call Ep)) :
    attempted (t ++ u) = attempted t ++ attempted u := by
  simp [attempted, List.filterMap_append]

theorem finish_attempted {σ Ep : Type} (w : World σ Ep) (dir : String) (episode : Ep)
    (subtitleLang : String) (s : St σ Ep) :
    attempted (mainAction.finish w dir episode subtitleLang s).trace = attempted s.trace := by
  unfold mainAction.finish
  simp only [St.call, St.log]
  repeat' split
  all_goals (try simp only [Prod.mk.injEq] at *)
  all_goals (try casesm* _ ∧ _)
  all_goals subst_vars
  all_goals simp [attempted, List.filterMap_append]

theorem subtitles_attempted {σ Ep : Type} (w : World σ Ep) (cfg : Config) (dir : String)
    (episode : Ep) (subOffset : Int) (s : St σ Ep) :
    attempted (mainAction.subtitles w cfg dir episode subOffset s).trace = attempted s.trace := by
  unfold mainAction.subtitles
  simp only [St.call, St.log]
  split
  all_goals (try simp only [Prod.mk.injEq] at *)
  all_goals (try casesm* _ ∧ _)
  all_goals subst_vars
  · simp [attempted, List.filterMap_append]
  · rw [finish_attempted]
    simp [attempted, List.filterMap_append]

theorem trimSunrise_attempted {σ Ep : Type} (w : World σ Ep) (cfg : Config) (dir : String)
    (episode : Ep) (subOffset : Int) (s : St σ Ep) :
    attempted (mainAction.trimSunrise w cfg dir episode subOffset s).trace
      = attempted s.trace := by
  unfold mainAction.trimSunrise
  simp only [St.call, St.log]
  split
  · split
    all_goals (try simp only [Prod.mk.injEq] at *)
    all_goals (try casesm* _ ∧ _)
    all_goals subst_vars
    · simp [attempted, List.filterMap_append]
    · rw [subtitles_attempted]
      simp [attempted, List.filterMap_append]
  · rw [subtitles_attempted]

theorem trimAniplex_attempted {σ Ep : Type} (w : World σ Ep) (cfg : Config) (dir : String)
    (episode : Ep) (subOffset : Int) (s : St σ Ep) :
    attempted (mainAction.trimAniplex w cfg dir episode subOffset s).trace
      = attempted s.trace := by
  unfold mainAction.trimAniplex
  simp only [St.call, St.log]
  split
  · split
    all_goals (try simp only [Prod.mk.injEq] at *)
    all_goals (try casesm* _ ∧ _)
    all_goals subst_vars
    · simp [attempted, List.filterMap_append]
    · rw [trimSunrise_attempted]
      simp [attempted, List.filterMap_append]
  · rw [trimSunrise_attempted]

theorem trimDaisuki_attempted {σ Ep : Type} (w : World σ Ep) (cfg : Config) (dir : String)
    (episode : Ep) (subOffset : Int) (s : St σ Ep) :
    attempted (mainAction.trimDaisuki w cfg dir episode subOffset s).trace
      = attempted s.trace := by
  unfold mainAction.trimDaisuki
  simp only [St.call, St.log]
  split
  · split
    all_goals (try simp only [Prod.mk.injEq] at *)
    all_goals (try casesm* _ ∧ _)
    all_goals subst_vars
    · simp [attempted, List.filterMap_append]
    · rw [trimAniplex_attempted]
      simp [attempted, List.filterMap_append]
  · rw [trimAniplex_attempted]

theorem episode_attempted {σ Ep : Type} (w : World σ Ep) (cfg : Config) (dir : String)
    (episode : Ep) (s : St σ Ep) :
    attempted (mainAction.episode w cfg dir episode s).trace
      = attempted s.trace ++ [episode] := by
  unfold mainAction.episode
  simp only [St.call, St.log]
  split
  all_goals (try simp only [Prod.mk.injEq] at *)
  all_goals (try casesm* _ ∧ _)
  all_goals subst_vars
  · simp [attempted, List.filterMap_append]
  · simp only
    split
    · simp [attempted, List.filterMap_append]
    · split
      all_goals (try simp only [Prod.mk.injEq] at *)
      all_goals (try casesm* _ ∧ _)
      all_goals subst_vars
      · simp [attempted, List.filterMap_append]
      · rw [trimDaisuki_attempted]
        simp [attempted, List.filterMap_append]

theorem episodes_attempted {σ Ep : Type} (w : World σ Ep) (cfg : Config) (dir : String)
    (episodes : List Ep) (s : St σ Ep) :
    attempted (episodes.foldl (fun s episode => mainAction.episode w cfg dir episode s) s).trace
      = attempted s.trace ++ episodes := by
  induction episodes generalizing s with
  | nil => simp
  | cons e rest ih =>
    simp only [List.foldl_cons]
    rw [ih, episode_attempted]
    simp

theorem seasons_attempted {σ Ep : Type} (w : World σ Ep) (cfg : Config) (sh : ShowData Ep)
    (s : St σ Ep) :
    attempted (mainAction.seasons w cfg sh s).trace
      = attempted s.trace ++ (sh.seasons.map Season.episodes).flatten := by
  unfold mainAction.seasons
  simp only [St.call, St.log]
  have hfold : ∀ (seasons : List (Season Ep)) (s : St σ Ep),
      attempted (seasons.foldl
        (fun s season =>
          season.episodes.foldl (fun s episode =>
            mainAction.episode w cfg (sh.title ++ w.pathSeparator ++ seasonMap season.number)
              episode s)
            { world := w.mkdir (sh.title ++ w.pathSeparator ++ seasonMap season.number) s.world,
              trace := s.trace
                ++ [Call.mkdir (sh.title ++ w.pathSeparator ++ seasonMap season.number)],
              daisukiIntroTrim := s.daisukiIntroTrim, aniplexIntroTrim := s.aniplexIntroTrim,
              sunriseIntroTrim := s.sunriseIntroTrim }) s).trace
        = attempted s.trace ++ (seasons.map Season.episodes).flatten := by
    intro seasons
    induction seasons with
    | nil => intro s; simp
    | cons season rest ih =>
      intro s
      simp only [List.foldl_cons, List.map_cons, List.flatten_cons]
      rw [ih, episodes_attempted]
      simp [attempted, List.filterMap_append]
  simp only [attempted_append]
  have h := hfold sh.seasons
    { world := w.mkdir sh.title s.world, trace := s.trace ++ [Call.mkdir sh.title],
      daisukiIntroTrim := s.daisukiIntroTrim, aniplexIntroTrim := s.aniplexIntroTrim,
      sunriseIntroTrim := s.sunriseIntroTrim }
  simp only [attempted_append] at h
  rw [h]
  simp [attempted]

theorem finish_stops {σ Ep : Type} (w : World σ Ep) (cfg : Config) (dir : String)
    (episode : Ep) (subtitleLang : String) (s : St σ Ep) :
    ∃ seg, (mainAction.finish w dir episode subtitleLang s).trace = s.trace ++ seg ∧
      (mainAction.finish w dir episode subtitleLang s).world = replayWorld w cfg seg s.world ∧
      stopsAtFailure w cfg seg s.world = true := by
  rcases hm : (w.mergeSubtitles "jpn" subtitleLang w.tempDir s.world).1 with _ | err
  · rcases hc : (w.cleanMKV w.tempDir
        (w.mergeSubtitles "jpn" subtitleLang w.tempDir s.world).2).1 with _ | err
    · rcases hr : (w.rename (w.tempDir ++ w.pathSeparator ++ "episode.mkv")
          (dir ++ w.pathSeparator ++ w.getFileName episode (w.cleanMKV w.tempDir
            (w.mergeSubtitles "jpn" subtitleLang w.tempDir s.world).2).2 ++ ".mkv") 10
          (w.cleanMKV w.tempDir
            (w.mergeSubtitles "jpn" subtitleLang w.tempDir s.world).2).2).1 with _ | err
      · refine ⟨[.say .white "[anirip] Merging subtitles into mkv container...\n",
          .mergeSubtitles "jpn" subtitleLang, .say .white "[anirip] Cleaning MKV...\n", .cleanMKV,
          .rename (w.tempDir ++ w.pathSeparator ++ "episode.mkv")
            (dir ++ w.pathSeparator ++ w.getFileName episode (w.cleanMKV w.tempDir
              (w.mergeSubtitles "jpn" subtitleLang w.tempDir s.world).2).2 ++ ".mkv") 10,
          .say .green "[anirip] Downloading and merging completed successfully.\n"], ?_, ?_, ?_⟩
        · unfold mainAction.finish
          simp only [St.call, St.log, hm, hc, hr]
          simp
        · unfold mainAction.finish
          simp only [St.call, St.log, hm, hc, hr]
          simp [replayWorld, replayCall]
        · simp [stopsAtFailure, replayCall, hm, hc, Call.isStep]
      · refine ⟨[.say .white "[anirip] Merging subtitles into mkv container...\n",
          .mergeSubtitles "jpn" subtitleLang, .say .white "[anirip] Cleaning MKV...\n", .cleanMKV,
          .rename (w.tempDir ++ w.pathSeparator ++ "episode.mkv")
            (dir ++ w.pathSeparator ++ w.getFileName episode (w.cleanMKV w.tempDir
              (w.mergeSubtitles "jpn" subtitleLang w.tempDir s.world).2).2 ++ ".mkv") 10,
          .say .red (err ++ "\n\n"),
          .say .green "[anirip] Downloading and merging completed successfully.\n"], ?_, ?_, ?_⟩
        · unfold mainAction.finish
          simp only [St.call, St.log, hm, hc, hr]
          simp
        · unfold mainAction.finish
          simp only [St.call, St.log, hm, hc, hr]
          simp [replayWorld, replayCall]
        · simp [stopsAtFailure, replayCall, hm, hc, Call.isStep]
    · refine ⟨[.say .white "[anirip] Merging subtitles into mkv container...\n",
        .mergeSubtitles "jpn" subtitleLang, .say .white "[anirip] Cleaning MKV...\n", .cleanMKV,
        .say .red ("[anirip] " ++ err ++ "\n")], ?_, ?_, ?_⟩
      · unfold mainAction.finish
        simp only [St.call, St.log, hm, hc]
        simp
      · unfold mainAction.finish
        simp only [St.call, St.log, hm, hc]
        simp [replayWorld, replayCall]
      · simp [stopsAtFailure, replayCall, hm, hc, Call.isStep]
  · refine ⟨[.say .white "[anirip] Merging subtitles into mkv container...\n",
      .mergeSubtitles "jpn" subtitleLang, .say .red ("[anirip] " ++ err ++ "\n")], ?_, ?_, ?_⟩
    · unfold mainAction.finish
      simp only [St.call, St.log, hm]
      simp
    · unfold mainAction.finish
      simp only [St.call, St.log, hm]
      simp [replayWorld, replayCall]
    · simp [stopsAtFailure, replayCall, hm, Call.isStep]

theorem subtitles_stops {σ Ep : Type} (w : World σ Ep) (cfg : Config) (dir : String)
    (episode : Ep) (subOffset : Int) (s : St σ Ep) :
    ∃ seg, (mainAction.subtitles w cfg dir episode subOffset s).trace = s.trace ++ seg ∧
      (mainAction.subtitles w cfg dir episode subOffset s).world
        = replayWorld w cfg seg s.world ∧
      stopsAtFailure w cfg seg s.world = true := by
  rcases hd : (w.downloadSubtitles episode cfg.language subOffset w.tempDir s.world).1
    with err | subtitleLang
  · refine ⟨[.say .white ("[anirip] Downloading subtitles with a total offset of "
        ++ Itoa subOffset ++ "ms...\n"),
      .downloadSubtitles episode cfg.language subOffset,
      .say .red ("[anirip] " ++ err ++ "\n")], ?_, ?_, ?_⟩
    · unfold mainAction.subtitles
      simp only [St.call, St.log, hd]
      simp
    · unfold mainAction.subtitles
      simp only [St.call, St.log, hd]
      simp [replayWorld, replayCall]
    · simp [stopsAtFailure, replayCall, hd, Call.isStep]
  · obtain ⟨seg, ht, hw, hs⟩ := finish_stops w cfg dir episode subtitleLang
      { world := (w.downloadSubtitles episode cfg.language subOffset w.tempDir s.world).2,
        trace := s.trace ++ [.say .white ("[anirip] Downloading subtitles with a total offset of "
          ++ Itoa subOffset ++ "ms...\n"), .downloadSubtitles episode cfg.language subOffset],
        daisukiIntroTrim := s.daisukiIntroTrim, aniplexIntroTrim := s.aniplexIntroTrim,
        sunriseIntroTrim := s.sunriseIntroTrim }
    refine ⟨[.say .white ("[anirip] Downloading subtitles with a total offset of "
        ++ Itoa subOffset ++ "ms...\n"),
      .downloadSubtitles episode cfg.language subOffset] ++ seg, ?_, ?_, ?_⟩
    · unfold mainAction.subtitles
      simp only [St.call, St.log, hd, List.append_assoc, List.singleton_append] at ht ⊢
      rw [ht]
    · unfold mainAction.subtitles
      simp only [St.call, St.log, hd, List.append_assoc, List.singleton_append] at hw ⊢
      rw [hw]
      simp [replayWorld, replayCall]
    · simp only [List.cons_append, List.nil_append, stopsAtFailure, replayCall, hd]
      simpa using hs

theorem trimSunrise_stops {σ Ep : Type} (w : World σ Ep) (cfg : Config) (dir : String)
    (episode : Ep) (subOffset : Int) (s : St σ Ep) :
    ∃ seg, (mainAction.trimSunrise w cfg dir episode subOffset s).trace = s.trace ++ seg ∧
      (mainAction.trimSunrise w cfg dir episode subOffset s).world
        = replayWorld w cfg seg s.world ∧
      stopsAtFailure w cfg seg s.world = true := by
  rcases hf : s.sunriseIntroTrim with _ | _
  · obtain ⟨seg, ht, hw, hs⟩ := subtitles_stops w cfg dir episode subOffset s
    refine ⟨seg, ?_, ?_, hs⟩
    · unfold mainAction.trimSunrise
      simp only [hf, Bool.false_eq_true, if_false]
      exact ht
    · unfold mainAction.trimSunrise
      simp only [hf, Bool.false_eq_true, if_false]
      exact hw
  · rcases hd : (w.trimMKV sunriseIntroLength w.tempDir s.world).1 with _ | err
    · obtain ⟨seg, ht, hw, hs⟩ := subtitles_stops w cfg dir episode
        (wrapInt (subOffset + sunriseIntroLength))
        { world := (w.trimMKV sunriseIntroLength w.tempDir s.world).2,
          trace := s.trace ++ [.say .white ("[anirip] Trimming off Sunrise Intro - "
            ++ Itoa sunriseIntroLength ++ "ms\n"), .trimMKV sunriseIntroLength],
          daisukiIntroTrim := s.daisukiIntroTrim, aniplexIntroTrim := s.aniplexIntroTrim,
          sunriseIntroTrim := s.sunriseIntroTrim }
      refine ⟨[.say .white ("[anirip] Trimming off Sunrise Intro - "
          ++ Itoa sunriseIntroLength ++ "ms\n"), .trimMKV sunriseIntroLength] ++ seg, ?_, ?_, ?_⟩
      · unfold mainAction.trimSunrise
        simp only [St.call, St.log, hf, hd, if_true, List.append_assoc,
          List.singleton_append] at ht ⊢
        rw [ht]
      · unfold mainAction.trimSunrise
        simp only [St.call, St.log, hf, hd, if_true, List.append_assoc,
          List.singleton_append] at hw ⊢
        rw [hw]
        simp [replayWorld, replayCall]
      · simp only [List.cons_append, List.nil_append, stopsAtFailure, replayCall, hd]
        simpa using hs
    · refine ⟨[.say .white ("[anirip] Trimming off Sunrise Intro - "
          ++ Itoa sunriseIntroLength ++ "ms\n"), .trimMKV sunriseIntroLength,
        .say .red ("[anirip] " ++ err ++ "\n")], ?_, ?_, ?_⟩
      · unfold mainAction.trimSunrise
        simp only [St.call, St.log, hf, hd, if_true]
        simp
      · unfold mainAction.trimSunrise
        simp only [St.call, St.log, hf, hd, if_true]
        simp [replayWorld, replayCall]
      · simp [stopsAtFailure, replayCall, hd, Call.isStep]

theorem trimAniplex_stops {σ Ep : Type} (w : World σ Ep) (cfg : Config) (dir : String)
    (episode : Ep) (subOffset : Int) (s : St σ Ep) :
    ∃ seg, (mainAction.trimAniplex w cfg dir episode subOffset s).trace = s.trace ++ seg ∧
      (mainAction.trimAniplex w cfg dir episode subOffset s).world
        = replayWorld w cfg seg s.world ∧
      stopsAtFailure w cfg seg s.world = true := by
  rcases hf : s.aniplexIntroTrim with _ | _
  · obtain ⟨seg, ht, hw, hs⟩ := trimSunrise_stops w cfg dir episode subOffset s
    refine ⟨seg, ?_, ?_, hs⟩
    · unfold mainAction.trimAniplex
      simp only [hf, Bool.false_eq_true, if_false]
      exact ht
    · unfold mainAction.trimAniplex
      simp only [hf, Bool.false_eq_true, if_false]
      exact hw
  · rcases hd : (w.trimMKV aniplexIntroLength w.tempDir s.world).1 with _ | err
    · obtain ⟨seg, ht, hw, hs⟩ := trimSunrise_stops w cfg dir episode
        (wrapInt (subOffset + aniplexIntroLength))
        { world := (w.trimMKV aniplexIntroLength w.tempDir s.world).2,
          trace := s.trace ++ [.say .white ("[anirip] Trimming off Aniplex Intro - "
            ++ Itoa aniplexIntroLength ++ "ms\n"), .trimMKV aniplexIntroLength],
          daisukiIntroTrim := s.daisukiIntroTrim, aniplexIntroTrim := s.aniplexIntroTrim,
          sunriseIntroTrim := s.sunriseIntroTrim }
      refine ⟨[.say .white ("[anirip] Trimming off Aniplex Intro - "
          ++ Itoa aniplexIntroLength ++ "ms\n"), .trimMKV aniplexIntroLength] ++ seg, ?_, ?_, ?_⟩
      · unfold mainAction.trimAniplex
        simp only [St.call, St.log, hf, hd, if_true, List.append_assoc,
          List.singleton_append] at ht ⊢
        rw [ht]
      · unfold mainAction.trimAniplex
        simp only [St.call, St.log, hf, hd, if_true, List.append_assoc,
          List.singleton_append] at hw ⊢
        rw [hw]
        simp [replayWorld, replayCall]
      · simp only [List.cons_append, List.nil_append, stopsAtFailure, replayCall, hd]
        simpa using hs
    · refine ⟨[.say .white ("[anirip] Trimming off Aniplex Intro - "
          ++ Itoa aniplexIntroLength ++ "ms\n"), .trimMKV aniplexIntroLength,
        .say .red ("[anirip] " ++ err ++ "\n")], ?_, ?_, ?_⟩
      · unfold mainAction.trimAniplex
        simp only [St.call, St.log, hf, hd, if_true]
        simp
      · unfold mainAction.trimAniplex
        simp only [St.call, St.log, hf, hd, if_true]
        simp [replayWorld, replayCall]
      · simp [stopsAtFailure, replayCall, hd, Call.isStep]

theorem trimDaisuki_stops {σ Ep : Type} (w : World σ Ep) (cfg : Config) (dir : String)
    (episode : Ep) (subOffset : Int) (s : St σ Ep) :
    ∃ seg, (mainAction.trimDaisuki w cfg dir episode subOffset s).trace = s.trace ++ seg ∧
      (mainAction.trimDaisuki w cfg dir episode subOffset s).world
        = replayWorld w cfg seg s.world ∧
      stopsAtFailure w cfg seg s.world = true := by
  rcases hf : s.daisukiIntroTrim with _ | _
  · obtain ⟨seg, ht, hw, hs⟩ := trimAniplex_stops w cfg dir episode subOffset s
    refine ⟨seg, ?_, ?_, hs⟩
    · unfold mainAction.trimDaisuki
      simp only [hf, Bool.false_eq_true, if_false]
      exact ht
    · unfold mainAction.trimDaisuki
      simp only [hf, Bool.false_eq_true, if_false]
      exact hw
  · rcases hd : (w.trimMKV daisukiIntroLength w.tempDir s.world).1 with _ | err
    · obtain ⟨seg, ht, hw, hs⟩ := trimAniplex_stops w cfg dir episode
        (wrapInt (subOffset + daisukiIntroLength))
        { world := (w.trimMKV daisukiIntroLength w.tempDir s.world).2,
          trace := s.trace ++ [.say .white ("[anirip] Trimming off Daisuki Intro - "
            ++ Itoa daisukiIntroLength ++ "ms\n"), .trimMKV daisukiIntroLength],
          daisukiIntroTrim := s.daisukiIntroTrim, aniplexIntroTrim := s.aniplexIntroTrim,
          sunriseIntroTrim := s.sunriseIntroTrim }
      refine ⟨[.say .white ("[anirip] Trimming off Daisuki Intro - "
          ++ Itoa daisukiIntroLength ++ "ms\n"), .trimMKV daisukiIntroLength] ++ seg, ?_, ?_, ?_⟩
      · unfold mainAction.trimDaisuki
        simp only [St.call, St.log, hf, hd, if_true, List.append_assoc,
          List.singleton_append] at ht ⊢
        rw [ht]
      · unfold mainAction.trimDaisuki
        simp only [St.call, St.log, hf, hd, if_true, List.append_assoc,
          List.singleton_append] at hw ⊢
        rw [hw]
        simp [replayWorld, replayCall]
      · simp only [List.cons_append, List.nil_append, stopsAtFailure, replayCall, hd]
        simpa using hs
    · refine ⟨[.say .white ("[anirip] Trimming off Daisuki Intro - "
          ++ Itoa daisukiIntroLength ++ "ms\n"), .trimMKV daisukiIntroLength,
        .say .red ("[anirip] " ++ err ++ "\n")], ?_, ?_, ?_⟩
      · unfold mainAction.trimDaisuki
        simp only [St.call, St.log, hf, hd, if_true]
        simp
      · unfold mainAction.trimDaisuki
        simp only [St.call, St.log, hf, hd, if_true]
        simp [replayWorld, replayCall]
      · simp [stopsAtFailure, replayCall, hd, Call.isStep]

theorem episode_stops {σ Ep : Type} (w : World σ Ep) (cfg : Config) (dir : String)
    (episode : Ep) (s : St σ Ep) :
    ∃ seg, (mainAction.episode w cfg dir episode s).trace = s.trace ++ seg ∧
      (mainAction.episode w cfg dir episode s).world = replayWorld w cfg seg s.world ∧
      stopsAtFailure w cfg seg s.world = true := by
  rcases hi : (w.getEpisodeInfo episode cfg.quality s.world).1 with _ | err
  · rcases hst : w.stat (dir ++ w.pathSeparator
        ++ w.getFileName episode (w.getEpisodeInfo episode cfg.quality s.world).2 ++ ".mkv")
        (w.getEpisodeInfo episode cfg.quality s.world).2 with _ | _
    · rcases hd : (w.downloadEpisode episode cfg.quality w.tempDir
          (w.getEpisodeInfo episode cfg.quality s.world).2).1 with _ | err
      · obtain ⟨seg, ht, hw, hs⟩ := trimDaisuki_stops w cfg dir episode 0
          { world := (w.downloadEpisode episode cfg.quality w.tempDir
              (w.getEpisodeInfo episode cfg.quality s.world).2).2,
            trace := s.trace ++ [.say .white "[anirip] Getting Episode Info...\n",
              .getEpisodeInfo episode cfg.quality,
              .stat (dir ++ w.pathSeparator ++ w.getFileName episode
                (w.getEpisodeInfo episode cfg.quality s.world).2 ++ ".mkv"),
              .say .cyan ("[anirip] Downloading " ++ w.getFileName episode
                (w.getEpisodeInfo episode cfg.quality s.world).2 ++ "\n"),
              .say .white "[anirip] Downloading video...\n",
              .downloadEpisode episode cfg.quality],
            daisukiIntroTrim := s.daisukiIntroTrim, aniplexIntroTrim := s.aniplexIntroTrim,
            sunriseIntroTrim := s.sunriseIntroTrim }
        refine ⟨[.say .white "[anirip] Getting Episode Info...\n",
          .getEpisodeInfo episode cfg.quality,
          .stat (dir ++ w.pathSeparator ++ w.getFileName episode
            (w.getEpisodeInfo episode cfg.quality s.world).2 ++ ".mkv"),
          .say .cyan ("[anirip] Downloading " ++ w.getFileName episode
            (w.getEpisodeInfo episode cfg.quality s.world).2 ++ "\n"),
          .say .white "[anirip] Downloading video...\n",
          .downloadEpisode episode cfg.quality] ++ seg, ?_, ?_, ?_⟩
        · unfold mainAction.episode
          simp only [St.call, St.log, hi, hst, hd, Bool.false_eq_true, if_false,
            List.append_assoc, List.singleton_append, List.cons_append, List.nil_append] at ht ⊢
          rw [ht]
        · unfold mainAction.episode
          simp only [St.call, St.log, hi, hst, hd, Bool.false_eq_true, if_false,
            List.append_assoc, List.singleton_append, List.cons_append, List.nil_append] at hw ⊢
          rw [hw]
          simp [replayWorld, replayCall]
        · simp only [List.cons_append, List.nil_append, stopsAtFailure, replayCall, hi, hd]
          simpa using hs
      · refine ⟨[.say .white "[anirip] Getting Episode Info...\n",
          .getEpisodeInfo episode cfg.quality,
          .stat (dir ++ w.pathSeparator ++ w.getFileName episode
            (w.getEpisodeInfo episode cfg.quality s.world).2 ++ ".mkv"),
          .say .cyan ("[anirip] Downloading " ++ w.getFileName episode
            (w.getEpisodeInfo episode cfg.quality s.world).2 ++ "\n"),
          .say .white "[anirip] Downloading video...\n",
          .downloadEpisode episode cfg.quality,
          .say .red ("[anirip] " ++ err ++ "\n")], ?_, ?_, ?_⟩
        · unfold mainAction.episode
          simp only [St.call, St.log, hi, hst, hd]
          simp
        · unfold mainAction.episode
          simp only [St.call, St.log, hi, hst, hd]
          simp [replayWorld, replayCall]
        · simp [stopsAtFailure, replayCall, hi, hd, Call.isStep]
    · refine ⟨[.say .white "[anirip] Getting Episode Info...\n",
        .getEpisodeInfo episode cfg.quality,
        .stat (dir ++ w.pathSeparator ++ w.getFileName episode
          (w.getEpisodeInfo episode cfg.quality s.world).2 ++ ".mkv"),
        .say .green ("[anirip] " ++ w.getFileName episode
          (w.getEpisodeInfo episode cfg.quality s.world).2
          ++ ".mkv has already been downloaded successfully..." ++ "\n")], ?_, ?_, ?_⟩
      · unfold mainAction.episode
        simp only [St.call, St.log, hi, hst]
        simp
      · unfold mainAction.episode
        simp only [St.call, St.log, hi, hst]
        simp [replayWorld, replayCall]
      · simp [stopsAtFailure, replayCall, hi, Call.isStep]
  · refine ⟨[.say .white "[anirip] Getting Episode Info...\n",
      .getEpisodeInfo episode cfg.quality, .say .red ("[anirip] " ++ err)], ?_, ?_, ?_⟩
    · unfold mainAction.episode
      simp only [St.call, St.log, hi]
      simp
    · unfold mainAction.episode
      simp only [St.call, St.log, hi]
      simp [replayWorld, replayCall]
    · simp [stopsAtFailure, replayCall, hi, Call.isStep]

/-- C11. Whatever the outcomes of the pipeline steps, in the body of the
episode loop no step is invoked after a step that fails: the calls the body of
an episode adds to the trace, run again on the world from the state in which
the body started, reach the state in which it ends, and when one of them fails
(metadata fetch, video download, trim, subtitle download, merge or clean) none
of the calls after it is a step of the pipeline. In detail, after a failed
step only the error line is printed. The loops go on: over any list of
episodes, and over all seasons of a show, every episode is attempted (its
metadata fetch is invoked) exactly once, in discovery order, whichever steps
failed for the episodes before it. -/
theorem step_failure_ends_episode_only {σ Ep : Type} (w : World σ Ep) (cfg : Config) :
    (∀ (dir : String) (episode : Ep) (s : St σ Ep),
      ∃ seg, (mainAction.episode w cfg dir episode s).trace = s.trace ++ seg ∧
        (mainAction.episode w cfg dir episode s).world = replayWorld w cfg seg s.world ∧
        stopsAtFailure w cfg seg s.world = true) ∧
    (∀ (dir : String) (episode : Ep) (s : St σ Ep) (err : String),
      (w.getEpisodeInfo episode cfg.quality s.world).1 = some err →
      (mainAction.episode w cfg dir episode s).trace = s.trace ++
        [.say .white "[anirip] Getting Episode Info...\n",
         .getEpisodeInfo episode cfg.quality,
         .say .red ("[anirip] " ++ err)]) ∧
    (∀ (dir : String) (episode : Ep) (s : St σ Ep) (err : String),
      (w.getEpisodeInfo episode cfg.quality s.world).1 = none →
      w.stat (dir ++ w.pathSeparator
        ++ w.getFileName episode (w.getEpisodeInfo episode cfg.quality s.world).2 ++ ".mkv")
        (w.getEpisodeInfo episode cfg.quality s.world).2 = false →
      (w.downloadEpisode episode cfg.quality w.tempDir
        (w.getEpisodeInfo episode cfg.quality s.world).2).1 = some err →
      (mainAction.episode w cfg dir episode s).trace = s.trace ++
        [.say .white "[anirip] Getting Episode Info...\n",
         .getEpisodeInfo episode cfg.quality,
         .stat (dir ++ w.pathSeparator
          ++ w.getFileName episode (w.getEpisodeInfo episode cfg.quality s.world).2 ++ ".mkv"),
         .say .cyan ("[anirip] Downloading "
          ++ w.getFileName episode (w.getEpisodeInfo episode cfg.quality s.world).2 ++ "\n"),
         .say .white "[anirip] Downloading video...\n",
         .downloadEpisode episode cfg.quality,
         .say .red ("[anirip] " ++ err ++ "\n")]) ∧
    (∀ (dir : String) (episode : Ep) (subOffset : Int) (s : St σ Ep) (err : String),
      s.daisukiIntroTrim = true →
      (w.trimMKV daisukiIntroLength w.tempDir s.world).1 = some err →
      (mainAction.trimDaisuki w cfg dir episode subOffset s).trace = s.trace ++
        [.say .white "[anirip] Trimming off Daisuki Intro - 5040ms\n",
         .trimMKV daisukiIntroLength,
         .say .red ("[anirip] " ++ err ++ "\n")]) ∧
    (∀ (dir : String) (episode : Ep) (subOffset : Int) (s : St σ Ep) (err : String),
      s.aniplexIntroTrim = true →
      (w.trimMKV aniplexIntroLength w.tempDir s.world).1 = some err →
      (mainAction.trimAniplex w cfg dir episode subOffset s).trace = s.trace ++
        [.say .white "[anirip] Trimming off Aniplex Intro - 6747ms\n",
         .trimMKV aniplexIntroLength,
         .say .red ("[anirip] " ++ err ++ "\n")]) ∧
    (∀ (dir : String) (episode : Ep) (subOffset : Int) (s : St σ Ep) (err : String),
      s.sunriseIntroTrim = true →
      (w.trimMKV sunriseIntroLength w.tempDir s.world).1 = some err →
      (mainAction.trimSunrise w cfg dir episode subOffset s).trace = s.trace ++
        [.say .white "[anirip] Trimming off Sunrise Intro - 8227ms\n",
         .trimMKV sunriseIntroLength,
         .say .red ("[anirip] " ++ err ++ "\n")]) ∧
    (∀ (dir : String) (episode : Ep) (subOffset : Int) (s : St σ Ep) (err : String),
      (w.downloadSubtitles episode cfg.language subOffset w.tempDir s.world).1 = .error err →
      (mainAction.subtitles w cfg dir episode subOffset s).trace = s.trace ++
        [.say .white ("[anirip] Downloading subtitles with a total offset of "
          ++ Itoa subOffset ++ "ms...\n"),
         .downloadSubtitles episode cfg.language subOffset,
         .say .red ("[anirip] " ++ err ++ "\n")]) ∧
    (∀ (dir : String) (episode : Ep) (subtitleLang : String) (s : St σ Ep) (err : String),
      (w.mergeSubtitles "jpn" subtitleLang w.tempDir s.world).1 = some err →
      (mainAction.finish w dir episode subtitleLang s).trace = s.trace ++
        [.say .white "[anirip] Merging subtitles into mkv container...\n",
         .mergeSubtitles "jpn" subtitleLang,
         .say .red ("[anirip] " ++ err ++ "\n")]) ∧
    (∀ (dir : String) (episode : Ep) (subtitleLang : String) (s : St σ Ep) (err : String),
      (w.mergeSubtitles "jpn" subtitleLang w.tempDir s.world).1 = none →
      (w.cleanMKV w.tempDir (w.mergeSubtitles "jpn" subtitleLang w.tempDir s.world).2).1
        = some err →
      (mainAction.finish w dir episode subtitleLang s).trace = s.trace ++
        [.say .white "[anirip] Merging subtitles into mkv container...\n",
         .mergeSubtitles "jpn" subtitleLang,
         .say .white "[anirip] Cleaning MKV...\n",
         .cleanMKV,
         .say .red ("[anirip] " ++ err ++ "\n")]) ∧
    (∀ (dir : String) (episodes : List Ep) (s : St σ Ep),
      attempted (episodes.foldl (fun s episode => mainAction.episode w cfg dir episode s) s).trace
        = attempted s.trace ++ episodes) ∧
    (∀ (sh : ShowData Ep) (s : St σ Ep),
      attempted (mainAction.seasons w cfg sh s).trace
        = attempted s.trace ++ (sh.seasons.map Season.episodes).flatten) := by
  refine ⟨?_, ?_, ?_, ?_, ?_, ?_, ?_, ?_, ?_, ?_, ?_⟩
  · intro dir episode s
    exact episode_stops w cfg dir episode s
  · intro dir episode s err h
    unfold mainAction.episode
    simp only [St.call, St.log, h]
    simp
  · intro dir episode s err hinfo hstat hdl
    unfold mainAction.episode
    simp only [St.call, St.log, hinfo, hstat, hdl]
    simp
  · intro dir episode subOffset s err hflag h
    unfold mainAction.trimDaisuki
    simp only [St.call, St.log, hflag, h, if_true]
    simp [daisukiIntroLength, Itoa]
    decide
  · intro dir episode subOffset s err hflag h
    unfold mainAction.trimAniplex
    simp only [St.call, St.log, hflag, h, if_true]
    simp [aniplexIntroLength, Itoa]
    decide
  · intro dir episode subOffset s err hflag h
    unfold mainAction.trimSunrise
    simp only [St.call, St.log, hflag, h, if_true]
    simp [sunriseIntroLength, Itoa]
    decide
  · intro dir episode subOffset s err h
    unfold mainAction.subtitles
    simp only [St.call, St.log, h]
    simp
  · intro dir episode subtitleLang s err h
    unfold mainAction.finish
    simp only [St.call, St.log, h]
    simp
  · intro dir episode subtitleLang s err hm hc
    unfold mainAction.finish
    simp only [St.call, St.log, hm, hc]
    simp
  · intro dir episodes s
    exact episodes_attempted w cfg dir episodes s
  · intro sh s
    exact seasons_attempted w cfg sh s

set_option maxRecDepth 8000 in
/-- Witness of C11 in `failingWorld`: the body of episode 2, whose subtitle
download fails, stops at the failure; the video download of episode 1 fails
and its body ends with the error line; the episodes 1, 2, 3 are all attempted
in that order; in `trimFailWorld` the body stops at the failed trim. A trace
that cleans after a failed video download is not one
that stops at the failure. -/
theorem step_failure_ends_episode_only_witness :
    (∃ seg, (mainAction.episode failingWorld (demoConfig "") "Show/Season One" 2
          (demoState [])).trace = (demoState []).trace ++ seg ∧
        (mainAction.episode failingWorld (demoConfig "") "Show/Season One" 2
          (demoState [])).world = replayWorld failingWorld (demoConfig "") seg (demoState []).world ∧
        stopsAtFailure failingWorld (demoConfig "") seg (demoState []).world = true) ∧
    (mainAction.episode failingWorld (demoConfig "") "Show/Season One" 1 (demoState [])).trace
      = (demoState []).trace ++
        [.say .white "[anirip] Getting Episode Info...\n",
         .getEpisodeInfo 1 "1080p",
         .stat "Show/Season One/Episode 1.mkv",
         .say .cyan "[anirip] Downloading Episode 1\n",
         .say .white "[anirip] Downloading video...\n",
         .downloadEpisode 1 "1080p",
         .say .red "[anirip] no stream\n"] ∧
    attempted ([1, 2, 3].foldl
        (fun s episode => mainAction.episode failingWorld (demoConfig "") "Show/Season One"
          episode s) (demoState [])).trace
      = attempted (demoState []).trace ++ [1, 2, 3] ∧
    (mainAction.episode failingWorld (demoConfig "") "Show/Season One" 2 (demoState [])).trace
      = [.say .white "[anirip] Getting Episode Info...\n",
         .getEpisodeInfo 2 "1080p",
         .stat "Show/Season One/Episode 2.mkv",
         .say .cyan "[anirip] Downloading Episode 2\n",
         .say .white "[anirip] Downloading video...\n",
         .downloadEpisode 2 "1080p",
         .say .white "[anirip] Downloading subtitles with a total offset of 0ms...\n",
         .downloadSubtitles 2 "English" 0,
         .say .red "[anirip] no subtitles\n"] ∧
    (mainAction.episode trimFailWorld (demoConfig "daisuki") "Show/Season One" 1
        (mainAction.setTrim trimFailWorld "daisuki" (demoState []))).trace
      = [.say .white "[anirip] Getting Episode Info...\n",
         .getEpisodeInfo 1 "1080p",
         .stat "Show/Season One/Episode 1.mkv",
         .say .cyan "[anirip] Downloading Episode 1\n",
         .say .white "[anirip] Downloading video...\n",
         .downloadEpisode 1 "1080p",
         .say .white "[anirip] Trimming off Daisuki Intro - 5040ms\n",
         .trimMKV 5040,
         .say .red "[anirip] mkvmerge failed\n"] ∧
    stopsAtFailure failingWorld (demoConfig "")
      [.downloadEpisode 1 "1080p", .cleanMKV] [] = false :=
  ⟨(step_failure_ends_episode_only failingWorld (demoConfig "")).1
      "Show/Season One" 2 (demoState []),
    (step_failure_ends_episode_only failingWorld (demoConfig "")).2.2.1
      "Show/Season One" 1 (demoState []) "no stream" (by decide) (by decide) (by decide),
    (step_failure_ends_episode_only failingWorld (demoConfig "")).2.2.2.2.2.2.2.2.2.1
      "Show/Season One" [1, 2, 3] (demoState []),
    by decide, by decide, by decide⟩

/-! ## Theorems: `createString` in general -/

theorem fibFrom_pair (a b : Int) (n : Nat) :
    (fun p : Int × Int => (p.2, p.1 + p.2))^[n] (a, b) = (fibFrom a b n, fibFrom a b (n + 1)) := by
  induction n with
  | zero => rfl
  | succ n ih =>
    rw [Function.iterate_succ_apply', ih]
    rfl

theorem fibFrom_nonneg (a b : Int) (ha : 0 ≤ a) (hb : 0 ≤ b) (n : Nat) :
    0 ≤ fibFrom a b n ∧ 0 ≤ fibFrom a b (n + 1) := by
  induction n with
  | zero => exact ⟨ha, hb⟩
  | succ n ih =>
    refine ⟨ih.2, ?_⟩
    show 0 ≤ fibFrom a b n + fibFrom a b (n + 1)
    omega

set_option maxRecDepth 20000 in
/-- C12, as the specification states it, fails in two ways. With [90, 97, 1, 2]
the term F(92) = 12200160415121876738 exceeds the 64-bit `int`: the code wraps
it to a negative number and the 90th character is U+FFFD, not chr(125). With
[1, 100000, 0, 55263] the value F(3) mod m + 33 = 55296 is a surrogate, not a
code point: the character returned is U+FFFD, whose code is 65533. -/
theorem createString_chr_counterexample :
    fibFrom 1 2 91 = 12200160415121876738 ∧
    (2 : Int) ^ 63 ≤ fibFrom 1 2 91 ∧
    fibFrom 1 2 91 % 97 + 33 = 125 ∧
    (createString [90, 97, 1, 2]).map (fun s => (s.length, s.data[89]?))
      = some (90, some (Char.ofNat 0xFFFD)) ∧
    Char.ofNat 0xFFFD ≠ Char.ofNat 125 ∧
    fibFrom 0 55263 2 % 100000 + 33 = 55296 ∧
    createString [1, 100000, 0, 55263] = some (String.singleton (Char.ofNat 0xFFFD)) ∧
    (Char.ofNat 0xFFFD).toNat = 65533 ∧
    ¬ Nat.isValidChar 55296 := by
  have h91 : fibFrom 1 2 91 = 12200160415121876738 := by
    have h := congrArg Prod.fst (fibFrom_pair 1 2 91)
    simp only at h
    rw [← h]
    decide
  refine ⟨h91, ?_, ?_, by decide, by decide, by decide, by decide, by decide, by decide⟩
  · rw [h91]; decide
  · rw [h91]; decide

theorem extend_spec (a b : Int) (ha : 0 ≤ a) (hb : 0 ≤ b) (j L : Nat) (hL : 2 ≤ L)
    (hfit : ∀ k, L ≤ k → k < L + j → fibFrom a b k < 2 ^ 63) :
    createString.extend j ((List.range L).map (fibFrom a b))
      = (List.range (L + j)).map (fibFrom a b) := by
  induction j generalizing L with
  | zero => rfl
  | succ j ih =>
    obtain ⟨L2, rfl⟩ : ∃ L2, L = L2 + 2 := ⟨L - 2, by omega⟩
    have h1 : ((List.range (L2 + 2)).map (fibFrom a b)).getD (L2 + 2 - 1) 0
        = fibFrom a b (L2 + 1) := by
      simp [List.getD, List.getElem?_range]
    have h2 : ((List.range (L2 + 2)).map (fibFrom a b)).getD (L2 + 2 - 2) 0
        = fibFrom a b L2 := by
      simp [List.getD, List.getElem?_range]
    have hsum : fibFrom a b (L2 + 1) + fibFrom a b L2 = fibFrom a b (L2 + 2) := by
      show _ = fibFrom a b L2 + fibFrom a b (L2 + 1)
      omega
    have hlt : fibFrom a b (L2 + 2) < 2 ^ 63 := hfit (L2 + 2) (by omega) (by omega)
    have hge : 0 ≤ fibFrom a b (L2 + 2) := (fibFrom_nonneg a b ha hb (L2 + 1)).2
    have hstep : (List.range (L2 + 2)).map (fibFrom a b) ++ [fibFrom a b (L2 + 2)]
        = (List.range (L2 + 2 + 1)).map (fibFrom a b) := by
      rw [List.range_succ (n := L2 + 2), List.map_append]
      rfl
    unfold createString.extend
    simp only [List.length_map, List.length_range]
    rw [h1, h2, hsum, wrapInt_of_bounds (by omega) hlt, hstep]
    have := ih (L2 + 2 + 1) (by omega) (fun k hk1 hk2 => hfit k (by omega) (by omega))
    rw [this]
    congr 2
    omega

theorem rune_of_term (m t : Int) (hm : 0 < m) (ht : 0 ≤ t)
    (hvalid : (t % m + 33).toNat.isValidChar) :
    runeToString (wrapInt (Int.tmod t m + 33))
      = String.singleton (Char.ofNat (t % m + 33).toNat) := by
  have hmod : Int.tmod t m = t % m := Int.tmod_eq_emod ht (le_of_lt hm)
  have h0 : 0 ≤ t % m := Int.emod_nonneg t (by omega)
  have hlt : (t % m + 33).toNat < 0x110000 := by
    rcases hvalid with h | ⟨_, h⟩
    · exact lt_trans h (by norm_num)
    · exact h
  have hlt2 : t % m + 33 < 0x110000 := by omega
  rw [hmod, wrapInt_of_bounds (by omega) (by omega)]
  unfold runeToString
  rw [if_pos ⟨by omega, hvalid⟩]

theorem foldlM_chars (m : Int) (hm : 0 < m) (l : List Int) (acc : String)
    (hl : ∀ t ∈ l, 0 ≤ t ∧ (t % m + 33).toNat.isValidChar) :
    l.foldlM
      (fun finalString arg =>
        if m = 0 then none
        else some (finalString ++ runeToString (wrapInt (Int.tmod arg m + 33))))
      acc
    = some (acc ++ String.mk (l.map fun t => Char.ofNat (t % m + 33).toNat)) := by
  have hm0 : m ≠ 0 := by omega
  simp only [hm0, if_false]
  induction l generalizing acc with
  | nil =>
    simp only [List.foldlM_nil, List.map_nil]
    congr 1
    apply String.ext
    simp
  | cons t rest ih =>
    obtain ⟨ht, hv⟩ := hl t (by simp)
    simp only [List.foldlM_cons, rune_of_term m t hm ht hv, List.map_cons]
    show (rest.foldlM _ _) = _
    rw [ih _ (fun u hu => hl u (by simp [hu]))]
    congr 1
    apply String.ext
    simp [String.singleton]

/-- C12, amended. For all integers n ≥ 0, m > 0, a ≥ 0 and b ≥ 0 such that none
of the terms F(3), ..., F(n+2) exceeds the largest 64-bit `int` and every
F(k+2) mod m + 33 is a Unicode code point, `createString([n, m, a, b])` returns
(the model is total) exactly n characters, the k-th (1-based) being the
character whose code is F(k+2) mod m + 33, for the sequence F(1) = a, F(2) = b,
F(j) = F(j-1) + F(j-2); here F(j) is `fibFrom a b (j-1)`, and the character at
the 0-based index k is that of `fibFrom a b (k+2)`. In particular
`createString([20, 97, 1, 2])` is the 20-character string "$&).6CXzPHw=2N_+isZK". -/
theorem createString_fibonacci_chars (n m a b : Int) (hn : 0 ≤ n) (hm : 0 < m)
    (ha : 0 ≤ a) (hb : 0 ≤ b)
    (hfit : ∀ k, k < n.toNat → fibFrom a b (k + 2) < 2 ^ 63)
    (hvalid : ∀ k, k < n.toNat → (fibFrom a b (k + 2) % m + 33).toNat.isValidChar) :
    createString [n, m, a, b]
      = some (String.mk ((List.range n.toNat).map fun k =>
          Char.ofNat (fibFrom a b (k + 2) % m + 33).toNat)) ∧
    ((String.mk ((List.range n.toNat).map fun k =>
          Char.ofNat (fibFrom a b (k + 2) % m + 33).toNat)).length : Int) = n ∧
    (∀ k, k < n.toNat →
      ((Char.ofNat (fibFrom a b (k + 2) % m + 33).toNat).toNat : Int)
        = fibFrom a b (k + 2) % m + 33) ∧
    createString [20, 97, 1, 2] = some "$&).6CXzPHw=2N_+isZK" ∧
    ("$&).6CXzPHw=2N_+isZK" : String).length = 20 := by
  refine ⟨?_, ?_, ?_, createString_seed, by decide⟩
  · have hext := extend_spec a b ha hb n.toNat 2 (le_refl 2)
      (fun k hk1 hk2 => by
        obtain ⟨i, rfl⟩ : ∃ i, k = i + 2 := ⟨k - 2, by omega⟩
        exact hfit i (by omega))
    have hinit : [a, b] = (List.range 2).map (fibFrom a b) := rfl
    have hdrop : ((List.range (2 + n.toNat)).map (fibFrom a b)).drop 2
        = (List.range n.toNat).map fun k => fibFrom a b (k + 2) := by
      rw [List.range_add, List.map_append, List.drop_append_of_le_length (by simp)]
      simp [List.map_map, Function.comp_def, Nat.add_comm]
    unfold createString
    simp only
    rw [hinit, hext, hdrop, foldlM_chars m hm]
    · congr 1
      apply String.ext
      simp [List.map_map, Function.comp_def]
    · intro t ht
      simp only [List.mem_map, List.mem_range] at ht
      obtain ⟨k, hk, rfl⟩ := ht
      exact ⟨(fibFrom_nonneg a b ha hb (k + 1)).2, hvalid k hk⟩
  · simp [String.length]
    omega
  · intro k hk
    have hv := hvalid k hk
    have h0 : 0 ≤ fibFrom a b (k + 2) % m := Int.emod_nonneg _ (by omega)
    have hc : (Char.ofNat (fibFrom a b (k + 2) % m + 33).toNat).toNat
        = (fibFrom a b (k + 2) % m + 33).toNat := by
      simp only [Char.ofNat, hv, dite_true, Char.toNat, Char.ofNatAux]
      rfl
    rw [hc]
    omega

/-- Witness of the amended C12 at [20, 97, 1, 2]. -/
theorem createString_fibonacci_chars_witness :
    createString [20, 97, 1, 2]
      = some (String.mk ((List.range (20 : Int).toNat).map fun k =>
          Char.ofNat (fibFrom 1 2 (k + 2) % 97 + 33).toNat)) ∧
    ((String.mk ((List.range (20 : Int).toNat).map fun k =>
          Char.ofNat (fibFrom 1 2 (k + 2) % 97 + 33).toNat)).length : Int) = 20 ∧
    (∀ k, k < (20 : Int).toNat →
      ((Char.ofNat (fibFrom 1 2 (k + 2) % 97 + 33).toNat).toNat : Int)
        = fibFrom 1 2 (k + 2) % 97 + 33) ∧
    createString [20, 97, 1, 2] = some "$&).6CXzPHw=2N_+isZK" ∧
    ("$&).6CXzPHw=2N_+isZK" : String).length = 20 :=
  createString_fibonacci_chars 20 97 1 2 (by decide) (by decide) (by decide) (by decide)
    (by
      intro k hk
      have hk20 : k < 20 := hk
      interval_cases k <;> decide)
    (by
      intro k hk
      have hk20 : k < 20 := hk
      interval_cases k <;> decide)

end Anirip
